import Mathlib

/-!
Verification of the voice-chat storage/session model of this repository.

The in-memory simulation lives in `src/simple-voice-test.js`
(class `SimpleVoiceChatDemo`); the incremental growth controller lives in
the unnamed reallocation client (`ReallocationExample.reallocatePDAToTargetSize`).

Embedding choices:
- The JS `Map`s keyed by random string ids become association lists keyed by
  `Nat`, with ids drawn from a `nextId` counter in the state (JS ids are
  unique fresh strings; the counter gives the same freshness).
- `new Date()` timestamps become a `now : Nat` argument supplied per call.
- Voice payloads are opaque byte arrays of which the code only ever reads
  `.length`; they are embedded as that length (`voiceLen : Nat`).
- A JS `throw` aborts the call but keeps every mutation already performed on
  the shared maps.  Operations therefore return an `OpResult` carrying the
  (possibly partially mutated) state on both the ok and the error path.
-/

namespace VoiceSpec

/-- Lookup in an association list keyed by `Nat` (embeds `Map.get`). -/
def mlookup {α : Type} (m : List (Nat × α)) (k : Nat) : Option α :=
  match m with
  | [] => none
  | (k0, v0) :: rest => if k0 = k then some v0 else mlookup rest k

/-- Insert-or-replace in an association list (embeds `Map.set`). -/
def mset {α : Type} (m : List (Nat × α)) (k : Nat) (v : α) : List (Nat × α) :=
  match m with
  | [] => [(k, v)]
  | (k0, v0) :: rest => if k0 = k then (k, v) :: rest else (k0, v0) :: mset rest k v

/-- A user record (`this.users` values in the source). -/
structure User where
  name : String
  joinedRooms : List Nat
  messagesSent : Nat
deriving DecidableEq

/-- A room record (`this.rooms` values in the source). -/
structure Room where
  name : String
  host : Nat
  participants : List Nat
  isActive : Bool
  createdAt : Nat
  lastActivity : Nat
  messageCount : Nat
deriving DecidableEq

/-- A stored message (`this.messages` values; the payload is kept as its
length, which is all the code ever reads of it). -/
structure Message where
  sender : Nat
  roomId : Nat
  targetPDAIndex : Nat
  sequenceNumber : Nat
  dataLength : Nat
  timestamp : Nat
deriving DecidableEq

/-- A storage slot (`this.storage` values, keyed by the PDA index). -/
structure StoragePDA where
  index : Nat
  capacity : Nat
  used : Nat
  messages : List Nat
deriving DecidableEq

/-- The mutable state of a `SimpleVoiceChatDemo` instance. -/
structure DemoState where
  rooms : List (Nat × Room)
  messages : List (Nat × Message)
  storage : List (Nat × StoragePDA)
  users : List (Nat × User)
  nextId : Nat
deriving DecidableEq

/-- The state right after the constructor runs: four empty maps. -/
def initState : DemoState :=
  { rooms := [], messages := [], storage := [], users := [], nextId := 0 }

/-- The error messages the simulation throws. -/
inductive VErr where
  | roomNotFound
  | roomNotActive
  | alreadyInRoom
  | roomFull
  | roomOrUserNotFound
  | userNotInRoom
  | voiceDataTooLarge
  | storagePDAFull (idx : Nat)
  | tooManyTargetPDAs
  | messageNotFound
  | typeError
deriving DecidableEq

/-- The outcome of one simulated call: a JS return value or a JS throw, in
both cases together with the state the maps are left in. -/
inductive OpResult (α : Type) where
  | ok (val : α) (st : DemoState)
  | err (e : VErr) (st : DemoState)
deriving DecidableEq

/-- The state an operation leaves behind, on either path. -/
def OpResult.state {α : Type} : OpResult α → DemoState
  | .ok _ st => st
  | .err _ st => st

/-- The error an operation threw, if any. -/
def OpResult.error {α : Type} : OpResult α → Option VErr
  | .ok _ _ => none
  | .err e _ => some e

/-- The returned value, with a default for the throwing case. -/
def OpResult.getD {α : Type} : OpResult α → α → α
  | .ok v _, _ => v
  | .err _ _, d => d

/-- `createUser(name)`: registers a fresh user; always succeeds. -/
def createUser (st : DemoState) (userName : String) : OpResult Nat :=
  let userId := st.nextId
  .ok userId
    { st with
      users := mset st.users userId
        { name := userName, joinedRooms := [], messagesSent := 0 },
      nextId := st.nextId + 1 }

/-- `createRoom(hostUserId, roomName)`: stores an active room with the host
as sole participant, then pushes the room onto the host's `joinedRooms`.
The source dereferences the host only after the room is stored, so a missing
host throws (a `TypeError`) with the room already inserted. -/
def createRoom (st : DemoState) (hostUserId : Nat) (roomName : String) (now : Nat) :
    OpResult Nat :=
  let roomId := st.nextId
  let st1 : DemoState :=
    { st with
      rooms := mset st.rooms roomId
        { name := roomName
          host := hostUserId
          participants := [hostUserId]
          isActive := true
          createdAt := now
          lastActivity := now
          messageCount := 0 },
      nextId := st.nextId + 1 }
  match mlookup st1.users hostUserId with
  | none => .err .typeError st1
  | some user =>
      .ok roomId
        { st1 with
          users := mset st1.users hostUserId
            { user with joinedRooms := user.joinedRooms ++ [roomId] } }

/-- `joinRoom(userId, roomId)`: checks room existence, activity, prior
membership and the 10-participant cap, in that order, then appends the user
to the room and the room to the user.  The source dereferences the user only
after the room-side push, so a missing user throws with the room already
mutated. -/
def joinRoom (st : DemoState) (userId roomId now : Nat) : OpResult Unit :=
  match mlookup st.rooms roomId with
  | none => .err .roomNotFound st
  | some room =>
      if room.isActive = false then .err .roomNotActive st
      else if userId ∈ room.participants then .err .alreadyInRoom st
      else if room.participants.length ≥ 10 then .err .roomFull st
      else
        let room1 : Room :=
          { room with participants := room.participants ++ [userId], lastActivity := now }
        let st1 : DemoState := { st with rooms := mset st.rooms roomId room1 }
        match mlookup st1.users userId with
        | none => .err .typeError st1
        | some user =>
            .ok ()
              { st1 with
                users := mset st1.users userId
                  { user with joinedRooms := user.joinedRooms ++ [roomId] } }

/-- `sendVoiceMessage(userId, roomId, voiceData, targetPDAIndex)`.
Source order, kept exactly: existence check, membership check, 29 KiB size
check; then the message is stored and `room.messageCount`,
`room.lastActivity`, `user.messagesSent` are updated; only after that is the
target slot lazily created (30 KiB capacity, `used = 0`) and its capacity
checked, throwing ``Storage PDA full`` without undoing the earlier updates.
Writing the looked-up slot back unchanged (`mset` with the value already
present) embeds the source's create-if-absent step and is the identity on
the map when the slot exists. -/
def sendVoiceMessage (st : DemoState) (userId roomId voiceLen targetPDAIndex now : Nat) :
    OpResult Nat :=
  match mlookup st.rooms roomId, mlookup st.users userId with
  | some room, some user =>
      if userId ∈ room.participants then
        if voiceLen > 29 * 1024 then .err .voiceDataTooLarge st
        else
          let messageId := st.nextId
          let sequenceNumber := room.messageCount + 1
          let st1 : DemoState :=
            { st with
              messages := mset st.messages messageId
                { sender := userId
                  roomId := roomId
                  targetPDAIndex := targetPDAIndex
                  sequenceNumber := sequenceNumber
                  dataLength := voiceLen
                  timestamp := now },
              nextId := st.nextId + 1 }
          let st2 : DemoState :=
            { st1 with
              rooms := mset st1.rooms roomId
                { room with messageCount := room.messageCount + 1, lastActivity := now },
              users := mset st1.users userId
                { user with messagesSent := user.messagesSent + 1 } }
          let slot : StoragePDA :=
            match mlookup st2.storage targetPDAIndex with
            | none =>
                { index := targetPDAIndex, capacity := 30 * 1024, used := 0, messages := [] }
            | some s => s
          let st3 : DemoState :=
            { st2 with storage := mset st2.storage targetPDAIndex slot }
          if slot.used + voiceLen > slot.capacity then
            .err (.storagePDAFull targetPDAIndex) st3
          else
            .ok messageId
              { st3 with
                storage := mset st3.storage targetPDAIndex
                  { slot with
                    used := slot.used + voiceLen
                    messages := slot.messages ++ [messageId] } }
      else .err .userNotInRoom st
  | _, _ => .err .roomOrUserNotFound st

/-- The `for (const pdaIndex of targetPDAs)` loop of
`broadcastVoiceMessage`: one `sendVoiceMessage` per target, collecting only
the ids of the successful sends and swallowing per-target errors. -/
def broadcastLoop (userId roomId voiceLen now : Nat) :
    List Nat → DemoState → List Nat → List Nat × DemoState
  | [], st, acc => (acc, st)
  | pdaIndex :: rest, st, acc =>
      match sendVoiceMessage st userId roomId voiceLen pdaIndex now with
      | .ok messageId st1 => broadcastLoop userId roomId voiceLen now rest st1 (acc ++ [messageId])
      | .err _ st1 => broadcastLoop userId roomId voiceLen now rest st1 acc

/-- `broadcastVoiceMessage(userId, roomId, voiceData, targetPDAs)`: checks
existence and the 10-target cap, then runs the per-target loop and returns
the list of successful message ids. -/
def broadcastVoiceMessage (st : DemoState) (userId roomId voiceLen : Nat)
    (targetPDAs : List Nat) (now : Nat) : OpResult (List Nat) :=
  match mlookup st.rooms roomId, mlookup st.users userId with
  | some _, some _ =>
      if targetPDAs.length > 10 then .err .tooManyTargetPDAs st
      else
        let r := broadcastLoop userId roomId voiceLen now targetPDAs st []
        .ok r.1 r.2
  | _, _ => .err .roomOrUserNotFound st

/-- `leaveRoom(userId, roomId)`: checks existence and membership, removes the
user from the room's participants and the room from the user's list, and
deactivates the room when it becomes empty. -/
def leaveRoom (st : DemoState) (userId roomId now : Nat) : OpResult Unit :=
  match mlookup st.rooms roomId, mlookup st.users userId with
  | some room, some user =>
      if userId ∈ room.participants then
        let room1 : Room :=
          { room with participants := room.participants.erase userId, lastActivity := now }
        let room2 : Room :=
          { room1 with
            isActive := if room1.participants.length = 0 then false else room1.isActive }
        let user1 : User := { user with joinedRooms := user.joinedRooms.erase roomId }
        .ok () { st with rooms := mset st.rooms roomId room2, users := mset st.users userId user1 }
      else .err .userNotInRoom st
  | _, _ => .err .roomOrUserNotFound st

/-- One call against the demo, abstracted over its arguments, for
quantifying over arbitrary call sequences. -/
inductive Op where
  | opCreateUser (userName : String)
  | opCreateRoom (hostUserId : Nat) (roomName : String) (now : Nat)
  | opJoinRoom (userId roomId now : Nat)
  | opSendVoiceMessage (userId roomId voiceLen targetPDAIndex now : Nat)
  | opBroadcastVoiceMessage (userId roomId voiceLen : Nat) (targetPDAs : List Nat) (now : Nat)
  | opLeaveRoom (userId roomId now : Nat)

/-- The state after one call, whether it returned or threw. -/
def applyOp (st : DemoState) : Op → DemoState
  | .opCreateUser n => (createUser st n).state
  | .opCreateRoom h n now => (createRoom st h n now).state
  | .opJoinRoom u r now => (joinRoom st u r now).state
  | .opSendVoiceMessage u r len pda now => (sendVoiceMessage st u r len pda now).state
  | .opBroadcastVoiceMessage u r len pdas now => (broadcastVoiceMessage st u r len pdas now).state
  | .opLeaveRoom u r now => (leaveRoom st u r now).state

/-- The state after a sequence of calls, successful or failing. -/
def runOpsAll (st : DemoState) : List Op → DemoState
  | [] => st
  | op :: rest => runOpsAll (applyOp st op) rest

/-- The sequence numbers of the messages stored for one room, in storage
order (which is creation order, since fresh keys are appended). -/
def roomSeqs (st : DemoState) (roomId : Nat) : List Nat :=
  (st.messages.filter (fun p => decide (p.2.roomId = roomId))).map
    (fun p => p.2.sequenceNumber)

/-- The used-byte counter of one storage slot, when the slot exists. -/
def slotUsed (st : DemoState) (idx : Nat) : Option Nat :=
  (mlookup st.storage idx).map StoragePDA.used

/-- States reachable from the fresh demo through successful calls only
(each step requires the call to have returned, not thrown; `createUser`
always returns). -/
inductive ReachableOk : DemoState → Prop where
  | init : ReachableOk initState
  | stepCreateUser {st : DemoState} (n : String)
      (h : ReachableOk st) : ReachableOk (createUser st n).state
  | stepCreateRoom {st : DemoState} (host : Nat) (n : String) (now : Nat)
      (h : ReachableOk st) (hok : (createRoom st host n now).error = none) :
      ReachableOk (createRoom st host n now).state
  | stepJoinRoom {st : DemoState} (uid rid now : Nat)
      (h : ReachableOk st) (hok : (joinRoom st uid rid now).error = none) :
      ReachableOk (joinRoom st uid rid now).state
  | stepLeaveRoom {st : DemoState} (uid rid now : Nat)
      (h : ReachableOk st) (hok : (leaveRoom st uid rid now).error = none) :
      ReachableOk (leaveRoom st uid rid now).state
  | stepSendVoiceMessage {st : DemoState} (uid rid len pda now : Nat)
      (h : ReachableOk st) (hok : (sendVoiceMessage st uid rid len pda now).error = none) :
      ReachableOk (sendVoiceMessage st uid rid len pda now).state

/-- Bidirectional membership consistency: a user stands in a room's
participant list exactly when the room stands in the user's room list. -/
def Consistent (st : DemoState) : Prop :=
  ∀ roomId room, mlookup st.rooms roomId = some room →
    ∀ userId user, mlookup st.users userId = some user →
      (userId ∈ room.participants ↔ roomId ∈ user.joinedRooms)

end VoiceSpec

namespace Realloc

/-- What one external `reallocatePdaAccount` RPC reports back to the client
loop: success, the program's `NoReallocNeeded` error, or any other error. -/
inductive StepOutcome where
  | ok
  | noReallocNeeded
  | otherError
deriving DecidableEq

/-- The external collaborators of `reallocatePDAToTargetSize`, abstracted:
`step` is the `reallocatePdaAccount` RPC acting on the ledger state `σ`, and
`readSize` is `getAccountInfo(...).data.length`. -/
structure GrowthEnv (σ : Type) where
  step : σ → StepOutcome × σ
  readSize : σ → Nat

/-- Ceiling division on naturals, matching `Math.ceil(a / b)` for the
non-negative integer inputs the client uses. -/
def natCeilDiv (a b : Nat) : Nat := (a + b - 1) / b

/-- The loop bound of `reallocatePDAToTargetSize`:
`Math.ceil((targetSize - 10240) / 10240)`, computed from the fixed initial
size constant 10240, never from an observed size.  A non-positive JS value
(target at or below 10240) makes the loop run zero times, which truncated
subtraction reproduces. -/
def maxIterationsFor (targetSize : Nat) : Nat := natCeilDiv (targetSize - 10240) 10240

/-- The body of the `while (currentIteration < maxIterations)` loop.  Each
iteration performs one external step; `NoReallocNeeded` breaks, any other
error is rethrown, and after a successful step the freshly read size breaks
out when it has reached the target.  The triple returned is (normal return
or rethrown error, final ledger state, number of external step calls). -/
def reallocSteps {σ : Type} (env : GrowthEnv σ) (targetSize : Nat) :
    Nat → σ → Nat → Except Unit Unit × σ × Nat
  | 0, s, calls => (Except.ok (), s, calls)
  | remaining + 1, s, calls =>
      match env.step s with
      | (StepOutcome.otherError, s1) => (Except.error (), s1, calls + 1)
      | (StepOutcome.noReallocNeeded, s1) => (Except.ok (), s1, calls + 1)
      | (StepOutcome.ok, s1) =>
          if targetSize ≤ env.readSize s1 then (Except.ok (), s1, calls + 1)
          else reallocSteps env targetSize remaining s1 (calls + 1)

/-- `reallocatePDAToTargetSize(authority, pdaAddress, targetSize)`, client
side: runs the bounded loop from iteration 0.  The preceding
`getReallocationStepsNeeded` call and the final `getAccountInfo` log are
pure logging with errors swallowed and do not influence the loop. -/
def reallocatePDAToTargetSize {σ : Type} (env : GrowthEnv σ) (targetSize : Nat) (s : σ) :
    Except Unit Unit × σ × Nat :=
  reallocSteps env targetSize (maxIterationsFor targetSize) s 0

/-- A ledger on which every growth step succeeds but the account never
actually grows: the state is the (constant) observed size. -/
def envStuck : GrowthEnv Nat :=
  { step := fun s => (StepOutcome.ok, s), readSize := fun s => s }

/-- A ledger whose steps succeed while the observed size stays at the
constant `n`. -/
def envConst (n : Nat) : GrowthEnv Unit :=
  { step := fun s => (StepOutcome.ok, s), readSize := fun _ => n }

/-- A ledger on which the program immediately reports `NoReallocNeeded`. -/
def envNoRealloc : GrowthEnv Unit :=
  { step := fun s => (StepOutcome.noReallocNeeded, s), readSize := fun _ => 0 }

/-- A ledger whose first step already lands the account at 40 KiB. -/
def envDone : GrowthEnv Unit :=
  { step := fun s => (StepOutcome.ok, s), readSize := fun _ => 40960 }

end Realloc

namespace VoiceSpec

/-- Demo run backing the C1 analysis: one user (id 0), one room (id 1), and
one 29696-byte message already stored in slot 0 (id 2, slot used 29696). -/
def c1pre : DemoState :=
  runOpsAll initState
    [Op.opCreateUser "A", Op.opCreateRoom 0 "R" 0, Op.opSendVoiceMessage 0 1 29696 0 1]

/-- Demo run backing the C3 analysis: one user (id 0) and one room (id 1). -/
def c3s0 : DemoState :=
  runOpsAll initState [Op.opCreateUser "A", Op.opCreateRoom 0 "R" 0]

/-- First send of the C3 run: 29696 bytes into slot 0; succeeds. -/
def c3r1 : OpResult Nat := sendVoiceMessage c3s0 0 1 29696 0 1

/-- Second send of the C3 run: 29696 bytes into the now nearly-full slot 0;
throws `Storage PDA 0 full` after the message and counters were written. -/
def c3r2 : OpResult Nat := sendVoiceMessage c3r1.state 0 1 29696 0 2

/-- Third send of the C3 run: 2000 bytes into the empty slot 1; succeeds. -/
def c3r3 : OpResult Nat := sendVoiceMessage c3r2.state 0 1 2000 1 3

/-- Demo run backing the C4 analysis: one user (id 0), one room (id 1), and
slot 1 pre-filled with a 29696-byte message (id 2). -/
def c4pre : DemoState :=
  runOpsAll initState
    [Op.opCreateUser "A", Op.opCreateRoom 0 "R" 0, Op.opSendVoiceMessage 0 1 29696 1 1]

/-- The C4 broadcast: 2000 bytes to slots `[0, 1, 2]` with slot 1 full. -/
def c4res : OpResult (List Nat) := broadcastVoiceMessage c4pre 0 1 2000 [0, 1, 2] 9

/-- Demo run backing the C6 analysis: user 0 creates room 1 and then leaves
it, so room 1 ends inactive with no participants. -/
def c6pre : DemoState :=
  runOpsAll initState [Op.opCreateUser "A", Op.opCreateRoom 0 "R" 0, Op.opLeaveRoom 0 1 2]

/-- Call sequence backing the C5 witness: eleven users, one room hosted by
user 0, and nine joins filling the room to its ten-participant cap. -/
def c5ops : List Op :=
  [Op.opCreateUser "U0", Op.opCreateUser "U1", Op.opCreateUser "U2", Op.opCreateUser "U3",
   Op.opCreateUser "U4", Op.opCreateUser "U5", Op.opCreateUser "U6", Op.opCreateUser "U7",
   Op.opCreateUser "U8", Op.opCreateUser "U9", Op.opCreateUser "U10",
   Op.opCreateRoom 0 "R" 0,
   Op.opJoinRoom 1 11 1, Op.opJoinRoom 2 11 2, Op.opJoinRoom 3 11 3,
   Op.opJoinRoom 4 11 4, Op.opJoinRoom 5 11 5, Op.opJoinRoom 6 11 6,
   Op.opJoinRoom 7 11 7, Op.opJoinRoom 8 11 8, Op.opJoinRoom 9 11 9]

/-- The state after `c5ops`: room 11 holds participants 0 through 9. -/
def c5full : DemoState := runOpsAll initState c5ops

/-- Demo run backing the C9 witness: user 0 alone in room 1. -/
def c9st : DemoState :=
  runOpsAll initState [Op.opCreateUser "A", Op.opCreateRoom 0 "R" 0]

/-- Demo run backing the C10 witness: users 0 and 1, room 2 hosted by user 0
and joined by user 1, reached through successful calls only. -/
def c10w : DemoState :=
  runOpsAll initState
    [Op.opCreateUser "A", Op.opCreateUser "B", Op.opCreateRoom 0 "R" 0, Op.opJoinRoom 1 2 1]

/-- The room record stored under id 1 in `c1pre`. -/
def c1room : Room :=
  { name := "R"
    host := 0
    participants := [0]
    isActive := true
    createdAt := 0
    lastActivity := 1
    messageCount := 1 }

/-- The user record stored under id 0 in `c1pre`. -/
def c1user : User := { name := "A", joinedRooms := [1], messagesSent := 1 }

/-- The slot record stored under index 0 in `c1pre`. -/
def c1slot : StoragePDA :=
  { index := 0, capacity := 30 * 1024, used := 29696, messages := [2] }

/-- The room record stored under id 11 in `c5full`. -/
def c5room : Room :=
  { name := "R"
    host := 0
    participants := [0, 1, 2, 3, 4, 5, 6, 7, 8, 9]
    isActive := true
    createdAt := 0
    lastActivity := 9
    messageCount := 0 }

/-- The room record stored under id 1 in `c6pre` (inactive, empty). -/
def c6room : Room :=
  { name := "R"
    host := 0
    participants := []
    isActive := false
    createdAt := 0
    lastActivity := 2
    messageCount := 0 }

/-- The user record stored under id 0 in `c6pre`. -/
def c6user : User := { name := "A", joinedRooms := [], messagesSent := 0 }

/-- The room record stored under id 1 in `c9st`. -/
def c9room : Room :=
  { name := "R"
    host := 0
    participants := [0]
    isActive := true
    createdAt := 0
    lastActivity := 0
    messageCount := 0 }

/-- The user record stored under id 0 in `c9st`. -/
def c9user : User := { name := "A", joinedRooms := [1], messagesSent := 0 }

/-- Analysis helper: the target slot of a send after the lazy-creation step
(the stored slot if present, else a fresh 30 KiB slot). -/
def slotAt (st : DemoState) (pda : Nat) : StoragePDA :=
  match mlookup st.storage pda with
  | none => { index := pda, capacity := 30 * 1024, used := 0, messages := [] }
  | some s => s

/-- Analysis helper: the new message record a send writes. -/
def sentMessage (u r len pda now : Nat) (room : Room) : Message :=
  { sender := u
    roomId := r
    targetPDAIndex := pda
    sequenceNumber := room.messageCount + 1
    dataLength := len
    timestamp := now }

/-- Analysis helper: the state a send leaves behind when the capacity check
fails — the message is stored, the room and user stats are updated, the
ensured slot is written back unchanged (this is `st3` in the definition of
`sendVoiceMessage`). -/
def sendStatsState (st : DemoState) (u r len pda now : Nat) (room : Room) (user : User) :
    DemoState :=
  { rooms := mset st.rooms r
      { room with messageCount := room.messageCount + 1, lastActivity := now }
    messages := mset st.messages st.nextId (sentMessage u r len pda now room)
    storage := mset st.storage pda (slotAt st pda)
    users := mset st.users u { user with messagesSent := user.messagesSent + 1 }
    nextId := st.nextId + 1 }

/-- Analysis helper: the state a fully successful send leaves behind — as
`sendStatsState`, with the slot usage and message list updated. -/
def sendOkState (st : DemoState) (u r len pda now : Nat) (room : Room) (user : User) :
    DemoState :=
  { sendStatsState st u r len pda now room user with
    storage := mset (mset st.storage pda (slotAt st pda)) pda
      { slotAt st pda with
        used := (slotAt st pda).used + len
        messages := (slotAt st pda).messages ++ [st.nextId] } }

/-- Analysis helper: the room record a fresh `createRoom` stores. -/
def createdRoom (hostUserId : Nat) (roomName : String) (now : Nat) : Room :=
  { name := roomName
    host := hostUserId
    participants := [hostUserId]
    isActive := true
    createdAt := now
    lastActivity := now
    messageCount := 0 }

/-- Analysis helper: the state after `createRoom` stored the room but before
the host is touched (the state a missing host leaves behind). -/
def createRoomMid (st : DemoState) (host : Nat) (roomName : String) (now : Nat) : DemoState :=
  { st with
    rooms := mset st.rooms st.nextId (createdRoom host roomName now)
    nextId := st.nextId + 1 }

/-- Analysis helper: the state a successful `createRoom` leaves behind. -/
def createRoomOk (st : DemoState) (host : Nat) (roomName : String) (now : Nat) (user : User) :
    DemoState :=
  { createRoomMid st host roomName now with
    users := mset st.users host { user with joinedRooms := user.joinedRooms ++ [st.nextId] } }

/-- Analysis helper: the state after `joinRoom` pushed the user onto the room
but before the user record is touched (the state a missing user leaves
behind). -/
def joinRoomMid (st : DemoState) (uid rid now : Nat) (room : Room) : DemoState :=
  { st with
    rooms := mset st.rooms rid
      { room with participants := room.participants ++ [uid], lastActivity := now } }

/-- Analysis helper: the state a successful `joinRoom` leaves behind. -/
def joinOkState (st : DemoState) (uid rid now : Nat) (room : Room) (user : User) : DemoState :=
  { joinRoomMid st uid rid now room with
    users := mset st.users uid { user with joinedRooms := user.joinedRooms ++ [rid] } }

/-- Analysis helper: the state a successful `leaveRoom` leaves behind. -/
def leaveOkState (st : DemoState) (uid rid now : Nat) (room : Room) (user : User) : DemoState :=
  { st with
    rooms := mset st.rooms rid
      { room with
        participants := room.participants.erase uid
        lastActivity := now
        isActive :=
          if (room.participants.erase uid).length = 0 then false else room.isActive }
    users := mset st.users uid { user with joinedRooms := user.joinedRooms.erase rid } }

/-- Restates, in its own words, per-target broadcast fan-out as the amended
C4 claim describes it, to be compared with the source's loop: walking the
target list in input order with the state threaded through, a target whose
send returns contributes its message id at that position of the output, and
a target whose send throws contributes nothing.  `BroadcastTrace u r len now
st targets ids stF` holds exactly when `ids` lists the ids of the successful
sends among `targets`, in input order, ending in state `stF`. -/
inductive BroadcastTrace (u r len now : Nat) : DemoState → List Nat → List Nat → DemoState → Prop
  | nil (st : DemoState) : BroadcastTrace u r len now st [] [] st
  | ok {st : DemoState} {targets ids : List Nat} {stF : DemoState} (pda mid : Nat)
      (st1 : DemoState)
      (hsend : sendVoiceMessage st u r len pda now = OpResult.ok mid st1)
      (hrest : BroadcastTrace u r len now st1 targets ids stF) :
      BroadcastTrace u r len now st (pda :: targets) (mid :: ids) stF
  | err {st : DemoState} {targets ids : List Nat} {stF : DemoState} (pda : Nat) (e : VErr)
      (st1 : DemoState)
      (hsend : sendVoiceMessage st u r len pda now = OpResult.err e st1)
      (hrest : BroadcastTrace u r len now st1 targets ids stF) :
      BroadcastTrace u r len now st (pda :: targets) ids stF

/-- The structural invariants every demo call preserves, whether it returns
or throws: slot usage within capacity, the participant cap, inactive rooms
being empty, id freshness, message-room liveness, and the per-room stored
sequence numbers forming exactly `1 … messageCount` in storage order. -/
structure CodeInv (st : DemoState) : Prop where
  slotsLe : ∀ p ∈ st.storage, p.2.used ≤ p.2.capacity
  roomsLe10 : ∀ p ∈ st.rooms, p.2.participants.length ≤ 10
  inactiveEmpty : ∀ p ∈ st.rooms, p.2.isActive = false → p.2.participants = []
  msgKeyLt : ∀ p ∈ st.messages, p.1 < st.nextId
  roomKeyLt : ∀ p ∈ st.rooms, p.1 < st.nextId
  msgRoomLive : ∀ p ∈ st.messages, (mlookup st.rooms p.2.roomId).isSome = true
  seqs : ∀ rid room, mlookup st.rooms rid = some room →
    roomSeqs st rid = List.range' 1 room.messageCount

/-- The membership invariants maintained along successful calls: the two
membership lists agree, are duplicate-free, and mention only already
allocated ids. -/
structure MemInv (st : DemoState) : Prop where
  consistent : Consistent st
  partsNodup : ∀ rid room, mlookup st.rooms rid = some room → room.participants.Nodup
  joinedNodup : ∀ uid user, mlookup st.users uid = some user → user.joinedRooms.Nodup
  roomKeyLt : ∀ rid room, mlookup st.rooms rid = some room → rid < st.nextId
  userKeyLt : ∀ uid user, mlookup st.users uid = some user → uid < st.nextId
  partsLt : ∀ rid room, mlookup st.rooms rid = some room →
    ∀ uid ∈ room.participants, uid < st.nextId
  joinedLt : ∀ uid user, mlookup st.users uid = some user →
    ∀ rid ∈ user.joinedRooms, rid < st.nextId

end VoiceSpec

namespace VoiceSpec

theorem mlookup_mset {α : Type} (m : List (Nat × α)) (k k1 : Nat) (v : α) :
    mlookup (mset m k v) k1 = if k = k1 then some v else mlookup m k1 := by
  induction m with
  | nil => simp [mset, mlookup]
  | cons hd tl ih =>
      obtain ⟨k0, v0⟩ := hd
      by_cases h0 : k0 = k
      · subst h0
        simp only [mset, if_pos rfl, mlookup]
        by_cases h1 : k0 = k1 <;> simp [h1]
      · simp only [mset, if_neg h0, mlookup]
        by_cases h1 : k0 = k1
        · have hk : ¬ k = k1 := fun hkk => h0 (h1.trans hkk.symm)
          simp [h1, hk]
        · simp [h1, ih]

theorem mlookup_mset_self {α : Type} (m : List (Nat × α)) (k : Nat) (v : α) :
    mlookup (mset m k v) k = some v := by
  simp [mlookup_mset]

theorem mlookup_mset_ne {α : Type} (m : List (Nat × α)) (k k1 : Nat) (v : α)
    (h : ¬ k = k1) : mlookup (mset m k v) k1 = mlookup m k1 := by
  simp [mlookup_mset, h]

theorem mem_mset {α : Type} (m : List (Nat × α)) (k : Nat) (v : α) (p : Nat × α) :
    p ∈ mset m k v → p = (k, v) ∨ p ∈ m := by
  induction m with
  | nil => intro h; simpa [mset] using h
  | cons hd tl ih =>
      obtain ⟨k0, v0⟩ := hd
      intro h
      by_cases h0 : k0 = k
      · subst h0
        simp only [mset, eq_self_iff_true, if_true, List.mem_cons] at h
        rcases h with h | h
        · exact Or.inl h
        · exact Or.inr (List.mem_cons_of_mem _ h)
      · simp only [mset, if_neg h0, List.mem_cons] at h
        rcases h with h | h
        · exact Or.inr (by simp [h])
        · rcases ih h with h1 | h1
          · exact Or.inl h1
          · exact Or.inr (List.mem_cons_of_mem _ h1)

theorem mset_eq_append {α : Type} (m : List (Nat × α)) (k : Nat) (v : α) :
    mlookup m k = none → mset m k v = m ++ [(k, v)] := by
  induction m with
  | nil => intro _; simp [mset]
  | cons hd tl ih =>
      obtain ⟨k0, v0⟩ := hd
      intro h
      simp only [mlookup] at h
      by_cases h0 : k0 = k
      · simp [h0] at h
      · simp only [mset, if_neg h0, List.cons_append, List.cons.injEq, true_and]
        exact ih (by simpa [h0] using h)

theorem mlookup_mem {α : Type} (m : List (Nat × α)) (k : Nat) (v : α) :
    mlookup m k = some v → (k, v) ∈ m := by
  induction m with
  | nil => intro h; simp [mlookup] at h
  | cons hd tl ih =>
      obtain ⟨k0, v0⟩ := hd
      intro h
      simp only [mlookup] at h
      by_cases h0 : k0 = k
      · subst h0
        rw [if_pos rfl] at h
        obtain rfl := Option.some.inj h
        exact List.mem_cons_self _ _
      · exact List.mem_cons_of_mem _ (ih (by simpa [h0] using h))

theorem mlookup_isSome_mset {α : Type} (m : List (Nat × α)) (k k1 : Nat) (v : α)
    (h : (mlookup m k1).isSome = true) : (mlookup (mset m k v) k1).isSome = true := by
  rw [mlookup_mset]
  by_cases h1 : k = k1 <;> simp [h1, h]

theorem range1_concat (s n : Nat) : List.range' s (n + 1) = List.range' s n ++ [s + n] := by
  induction n generalizing s with
  | zero => simp [List.range']
  | succ k ih =>
      have h1 : s + 1 + k = s + (k + 1) := by omega
      rw [List.range'_succ, ih (s + 1), List.range'_succ, h1]
      simp

theorem sendVoiceMessage_eq (st : DemoState) (u r len pda now : Nat) :
    sendVoiceMessage st u r len pda now =
      match mlookup st.rooms r, mlookup st.users u with
      | some room, some user =>
          if u ∈ room.participants then
            if len > 29 * 1024 then OpResult.err VErr.voiceDataTooLarge st
            else if (slotAt st pda).used + len > (slotAt st pda).capacity then
              OpResult.err (VErr.storagePDAFull pda) (sendStatsState st u r len pda now room user)
            else OpResult.ok st.nextId (sendOkState st u r len pda now room user)
          else OpResult.err VErr.userNotInRoom st
      | _, _ => OpResult.err VErr.roomOrUserNotFound st := by
  cases hr : mlookup st.rooms r with
  | none => simp [sendVoiceMessage, hr]
  | some room =>
      cases hu : mlookup st.users u with
      | none => simp [sendVoiceMessage, hr, hu]
      | some user =>
          by_cases hmem : u ∈ room.participants
          · by_cases hbig : len > 29 * 1024
            · simp [sendVoiceMessage, hr, hu, hmem, hbig]
            · by_cases hfull : (slotAt st pda).used + len > (slotAt st pda).capacity
              · cases hs : mlookup st.storage pda with
                | none =>
                    simp_all [sendVoiceMessage, hr, hu, hmem, hbig, hs, slotAt,
                      sendStatsState, sentMessage]
                | some s =>
                    simp_all [sendVoiceMessage, hr, hu, hmem, hbig, hs, slotAt,
                      sendStatsState, sentMessage]
              · cases hs : mlookup st.storage pda with
                | none =>
                    simp_all [sendVoiceMessage, hr, hu, hmem, hbig, hs, slotAt,
                      sendOkState, sendStatsState, sentMessage]
                | some s =>
                    simp_all [sendVoiceMessage, hr, hu, hmem, hbig, hs, slotAt,
                      sendOkState, sendStatsState, sentMessage]
          · simp [sendVoiceMessage, hr, hu, hmem]

theorem createRoom_eq (st : DemoState) (host : Nat) (n : String) (now : Nat) :
    createRoom st host n now =
      match mlookup st.users host with
      | none => OpResult.err VErr.typeError (createRoomMid st host n now)
      | some user => OpResult.ok st.nextId (createRoomOk st host n now user) := by
  cases hu : mlookup st.users host with
  | none => simp [createRoom, hu, createRoomMid, createdRoom]
  | some user => simp [createRoom, hu, createRoomOk, createRoomMid, createdRoom]

theorem joinRoom_eq (st : DemoState) (uid rid now : Nat) :
    joinRoom st uid rid now =
      match mlookup st.rooms rid with
      | none => OpResult.err VErr.roomNotFound st
      | some room =>
          if room.isActive = false then OpResult.err VErr.roomNotActive st
          else if uid ∈ room.participants then OpResult.err VErr.alreadyInRoom st
          else if room.participants.length ≥ 10 then OpResult.err VErr.roomFull st
          else
            match mlookup st.users uid with
            | none => OpResult.err VErr.typeError (joinRoomMid st uid rid now room)
            | some user => OpResult.ok () (joinOkState st uid rid now room user) := by
  cases hr : mlookup st.rooms rid with
  | none => simp [joinRoom, hr]
  | some room =>
      by_cases hact : room.isActive = false
      · simp [joinRoom, hr, hact]
      · by_cases hmem : uid ∈ room.participants
        · simp [joinRoom, hr, hact, hmem]
        · by_cases hlen : room.participants.length ≥ 10
          · simp [joinRoom, hr, hact, hmem, hlen]
          · cases hu : mlookup st.users uid with
            | none => simp [joinRoom, hr, hact, hmem, hlen, hu, joinRoomMid]
            | some user =>
                simp [joinRoom, hr, hact, hmem, hlen, hu, joinOkState, joinRoomMid]

theorem leaveRoom_eq (st : DemoState) (uid rid now : Nat) :
    leaveRoom st uid rid now =
      match mlookup st.rooms rid, mlookup st.users uid with
      | some room, some user =>
          if uid ∈ room.participants then OpResult.ok () (leaveOkState st uid rid now room user)
          else OpResult.err VErr.userNotInRoom st
      | _, _ => OpResult.err VErr.roomOrUserNotFound st := by
  cases hr : mlookup st.rooms rid with
  | none => simp [leaveRoom, hr]
  | some room =>
      cases hu : mlookup st.users uid with
      | none => simp [leaveRoom, hr, hu]
      | some user =>
          by_cases hmem : uid ∈ room.participants
          · simp [leaveRoom, hr, hu, hmem, leaveOkState]
          · simp [leaveRoom, hr, hu, hmem]

theorem mlookup_none_of_lt {α : Type} (m : List (Nat × α)) (n : Nat)
    (h : ∀ p ∈ m, p.1 < n) : mlookup m n = none := by
  cases hm : mlookup m n with
  | none => rfl
  | some v => exact absurd (h (n, v) (mlookup_mem _ _ _ hm)) (by simp)

theorem slotAt_le (st : DemoState) (pda : Nat)
    (h : ∀ p ∈ st.storage, p.2.used ≤ p.2.capacity) :
    (slotAt st pda).used ≤ (slotAt st pda).capacity := by
  unfold slotAt
  cases hs : mlookup st.storage pda with
  | none => simp
  | some s => exact h (pda, s) (mlookup_mem _ _ _ hs)

theorem roomSeqs_fresh (st : DemoState)
    (hlive : ∀ p ∈ st.messages, (mlookup st.rooms p.2.roomId).isSome = true)
    (hkeys : ∀ p ∈ st.rooms, p.1 < st.nextId)
    (rid : Nat) (hrid : st.nextId ≤ rid) : roomSeqs st rid = [] := by
  unfold roomSeqs
  have hfil : st.messages.filter (fun p => decide (p.2.roomId = rid)) = [] := by
    rw [List.filter_eq_nil_iff]
    intro p hp
    simp only [decide_eq_true_eq]
    intro hcontra
    obtain ⟨room, hroom⟩ := Option.isSome_iff_exists.mp (hlive p hp)
    have := hkeys (p.2.roomId, room) (mlookup_mem _ _ _ hroom)
    simp only at this
    omega
  rw [hfil]
  rfl

theorem codeInv_sendStats (st : DemoState) (u r len pda now : Nat) (room : Room) (user : User)
    (hr : mlookup st.rooms r = some room) (h : CodeInv st) :
    CodeInv (sendStatsState st u r len pda now room user) := by
  obtain ⟨h1, h2, h3, h4, h5, h6, h7⟩ := h
  have hfresh : mlookup st.messages st.nextId = none := mlookup_none_of_lt _ _ h4
  have happ : mset st.messages st.nextId (sentMessage u r len pda now room) =
      st.messages ++ [(st.nextId, sentMessage u r len pda now room)] :=
    mset_eq_append _ _ _ hfresh
  refine ⟨?_, ?_, ?_, ?_, ?_, ?_, ?_⟩
  · intro p hp
    simp only [sendStatsState] at hp
    rcases mem_mset _ _ _ _ hp with rfl | hp2
    · exact slotAt_le st pda h1
    · exact h1 p hp2
  · intro p hp
    simp only [sendStatsState] at hp
    rcases mem_mset _ _ _ _ hp with rfl | hp2
    · simpa using h2 (r, room) (mlookup_mem _ _ _ hr)
    · exact h2 p hp2
  · intro p hp
    simp only [sendStatsState] at hp
    rcases mem_mset _ _ _ _ hp with rfl | hp2
    · intro hact
      simpa using h3 (r, room) (mlookup_mem _ _ _ hr) (by simpa using hact)
    · exact h3 p hp2
  · intro p hp
    simp only [sendStatsState] at hp ⊢
    rcases mem_mset _ _ _ _ hp with rfl | hp2
    · simp
    · have := h4 p hp2
      omega
  · intro p hp
    simp only [sendStatsState] at hp ⊢
    rcases mem_mset _ _ _ _ hp with rfl | hp2
    · have := h5 (r, room) (mlookup_mem _ _ _ hr)
      simp only at this ⊢
      omega
    · have := h5 p hp2
      omega
  · intro p hp
    simp only [sendStatsState] at hp ⊢
    rcases mem_mset _ _ _ _ hp with rfl | hp2
    · simp [sentMessage, mlookup_mset_self]
    · exact mlookup_isSome_mset _ _ _ _ (h6 p hp2)
  · intro rid2 room2 hlook
    simp only [sendStatsState] at hlook
    rw [mlookup_mset] at hlook
    by_cases hcase : r = rid2
    · subst hcase
      rw [if_pos rfl] at hlook
      obtain rfl := Option.some.inj hlook
      have hstep : roomSeqs (sendStatsState st u r len pda now room user) r
          = roomSeqs st r ++ [room.messageCount + 1] := by
        simp only [roomSeqs, sendStatsState, happ, List.filter_append, List.map_append]
        simp [sentMessage]
      rw [hstep, h7 r room hr]
      simp only
      rw [range1_concat]
      simp [Nat.add_comm]
    · rw [if_neg hcase] at hlook
      have hstep : roomSeqs (sendStatsState st u r len pda now room user) rid2
          = roomSeqs st rid2 := by
        simp only [roomSeqs, sendStatsState, happ, List.filter_append, List.map_append]
        simp [sentMessage, hcase]
      rw [hstep]
      exact h7 rid2 room2 hlook

theorem codeInv_sendOk (st : DemoState) (u r len pda now : Nat) (room : Room) (user : User)
    (hr : mlookup st.rooms r = some room)
    (hfit : (slotAt st pda).used + len ≤ (slotAt st pda).capacity)
    (h : CodeInv st) : CodeInv (sendOkState st u r len pda now room user) := by
  have hs := codeInv_sendStats st u r len pda now room user hr h
  refine ⟨?_, hs.roomsLe10, hs.inactiveEmpty, hs.msgKeyLt, hs.roomKeyLt, hs.msgRoomLive, hs.seqs⟩
  intro p hp
  simp only [sendOkState, sendStatsState] at hp
  rcases mem_mset _ _ _ _ hp with rfl | hp2
  · simpa using hfit
  · rcases mem_mset _ _ _ _ hp2 with rfl | hp3
    · exact slotAt_le st pda h.slotsLe
    · exact h.slotsLe p hp3

theorem codeInv_send (st : DemoState) (u r len pda now : Nat) (h : CodeInv st) :
    CodeInv (sendVoiceMessage st u r len pda now).state := by
  rw [sendVoiceMessage_eq]
  cases hr : mlookup st.rooms r with
  | none => exact h
  | some room =>
      cases hu : mlookup st.users u with
      | none => exact h
      | some user =>
          by_cases hmem : u ∈ room.participants
          · by_cases hbig : len > 29 * 1024
            · simp only [if_pos hmem, if_pos hbig]
              exact h
            · by_cases hfull : (slotAt st pda).used + len > (slotAt st pda).capacity
              · simp only [if_pos hmem, if_neg hbig, if_pos hfull, OpResult.state]
                exact codeInv_sendStats st u r len pda now room user hr h
              · simp only [if_pos hmem, if_neg hbig, if_neg hfull, OpResult.state]
                exact codeInv_sendOk st u r len pda now room user hr (by omega) h
          · simp only [if_neg hmem]
            exact h

theorem createUser_state (st : DemoState) (n : String) :
    (createUser st n).state =
      { st with
        users := mset st.users st.nextId { name := n, joinedRooms := [], messagesSent := 0 }
        nextId := st.nextId + 1 } := rfl

theorem codeInv_createUser (st : DemoState) (n : String) (h : CodeInv st) :
    CodeInv (createUser st n).state := by
  obtain ⟨h1, h2, h3, h4, h5, h6, h7⟩ := h
  rw [createUser_state]
  refine ⟨?_, ?_, ?_, ?_, ?_, ?_, ?_⟩
  · exact h1
  · exact h2
  · exact h3
  · intro p hp
    have := h4 p hp
    simp only
    omega
  · intro p hp
    have := h5 p hp
    simp only
    omega
  · exact h6
  · intro rid room hlook
    exact h7 rid room hlook

theorem codeInv_createRoomMid (st : DemoState) (host : Nat) (n : String) (now : Nat)
    (h : CodeInv st) : CodeInv (createRoomMid st host n now) := by
  obtain ⟨h1, h2, h3, h4, h5, h6, h7⟩ := h
  refine ⟨?_, ?_, ?_, ?_, ?_, ?_, ?_⟩
  · simpa [createRoomMid] using h1
  · intro p hp
    simp only [createRoomMid] at hp
    rcases mem_mset _ _ _ _ hp with rfl | hp2
    · simp [createdRoom]
    · exact h2 p hp2
  · intro p hp
    simp only [createRoomMid] at hp
    rcases mem_mset _ _ _ _ hp with rfl | hp2
    · simp [createdRoom]
    · exact h3 p hp2
  · intro p hp
    simp only [createRoomMid] at hp ⊢
    have := h4 p hp
    omega
  · intro p hp
    simp only [createRoomMid] at hp ⊢
    rcases mem_mset _ _ _ _ hp with rfl | hp2
    · simp
    · have := h5 p hp2
      omega
  · intro p hp
    simp only [createRoomMid] at hp ⊢
    exact mlookup_isSome_mset _ _ _ _ (h6 p hp)
  · intro rid room hlook
    simp only [createRoomMid] at hlook
    rw [mlookup_mset] at hlook
    by_cases hcase : st.nextId = rid
    · rw [if_pos hcase] at hlook
      obtain rfl := Option.some.inj hlook
      have hbase : roomSeqs st rid = [] := roomSeqs_fresh st h6 h5 rid (le_of_eq hcase)
      have hstep : roomSeqs (createRoomMid st host n now) rid = [] := by
        simpa [roomSeqs, createRoomMid] using hbase
      rw [hstep]
      simp [createdRoom]
    · rw [if_neg hcase] at hlook
      have hstep : roomSeqs (createRoomMid st host n now) rid = roomSeqs st rid := by
        simp [roomSeqs, createRoomMid]
      rw [hstep]
      exact h7 rid room hlook

theorem codeInv_createRoomOk (st : DemoState) (host : Nat) (n : String) (now : Nat)
    (user : User) (h : CodeInv st) : CodeInv (createRoomOk st host n now user) := by
  have hm := codeInv_createRoomMid st host n now h
  exact ⟨hm.slotsLe, hm.roomsLe10, hm.inactiveEmpty, hm.msgKeyLt, hm.roomKeyLt,
    hm.msgRoomLive, hm.seqs⟩

theorem codeInv_createRoom (st : DemoState) (host : Nat) (n : String) (now : Nat)
    (h : CodeInv st) : CodeInv (createRoom st host n now).state := by
  rw [createRoom_eq]
  cases hu : mlookup st.users host with
  | none => exact codeInv_createRoomMid st host n now h
  | some user => exact codeInv_createRoomOk st host n now user h

theorem codeInv_joinRoomMid (st : DemoState) (uid rid now : Nat) (room : Room)
    (hr : mlookup st.rooms rid = some room)
    (hact : ¬ room.isActive = false)
    (hlen : ¬ room.participants.length ≥ 10)
    (h : CodeInv st) : CodeInv (joinRoomMid st uid rid now room) := by
  obtain ⟨h1, h2, h3, h4, h5, h6, h7⟩ := h
  refine ⟨?_, ?_, ?_, ?_, ?_, ?_, ?_⟩
  · simpa [joinRoomMid] using h1
  · intro p hp
    simp only [joinRoomMid] at hp
    rcases mem_mset _ _ _ _ hp with rfl | hp2
    · simp only [List.length_append, List.length_cons, List.length_nil]
      omega
    · exact h2 p hp2
  · intro p hp
    simp only [joinRoomMid] at hp
    rcases mem_mset _ _ _ _ hp with rfl | hp2
    · intro hfalse
      exact absurd hfalse hact
    · exact h3 p hp2
  · intro p hp
    simp only [joinRoomMid] at hp ⊢
    exact h4 p hp
  · intro p hp
    simp only [joinRoomMid] at hp ⊢
    rcases mem_mset _ _ _ _ hp with rfl | hp2
    · exact h5 (rid, room) (mlookup_mem _ _ _ hr)
    · exact h5 p hp2
  · intro p hp
    simp only [joinRoomMid] at hp ⊢
    exact mlookup_isSome_mset _ _ _ _ (h6 p hp)
  · intro rid2 room2 hlook
    simp only [joinRoomMid] at hlook
    rw [mlookup_mset] at hlook
    have hstep : roomSeqs (joinRoomMid st uid rid now room) rid2 = roomSeqs st rid2 := by
      simp [roomSeqs, joinRoomMid]
    by_cases hcase : rid = rid2
    · rw [if_pos hcase] at hlook
      obtain rfl := Option.some.inj hlook
      rw [hstep]
      subst hcase
      simpa using h7 rid room hr
    · rw [if_neg hcase] at hlook
      rw [hstep]
      exact h7 rid2 room2 hlook

theorem codeInv_joinOk (st : DemoState) (uid rid now : Nat) (room : Room) (user : User)
    (hr : mlookup st.rooms rid = some room)
    (hact : ¬ room.isActive = false)
    (hlen : ¬ room.participants.length ≥ 10)
    (h : CodeInv st) : CodeInv (joinOkState st uid rid now room user) := by
  have hm := codeInv_joinRoomMid st uid rid now room hr hact hlen h
  exact ⟨hm.slotsLe, hm.roomsLe10, hm.inactiveEmpty, hm.msgKeyLt, hm.roomKeyLt,
    hm.msgRoomLive, hm.seqs⟩

theorem codeInv_join (st : DemoState) (uid rid now : Nat) (h : CodeInv st) :
    CodeInv (joinRoom st uid rid now).state := by
  rw [joinRoom_eq]
  cases hr : mlookup st.rooms rid with
  | none => exact h
  | some room =>
      by_cases hact : room.isActive = false
      · simp only [if_pos hact]
        exact h
      · by_cases hmem : uid ∈ room.participants
        · simp only [if_neg hact, if_pos hmem]
          exact h
        · by_cases hlen : room.participants.length ≥ 10
          · simp only [if_neg hact, if_neg hmem, if_pos hlen]
            exact h
          · simp only [if_neg hact, if_neg hmem, if_neg hlen]
            cases hu : mlookup st.users uid with
            | none => exact codeInv_joinRoomMid st uid rid now room hr hact hlen h
            | some user => exact codeInv_joinOk st uid rid now room user hr hact hlen h

theorem codeInv_leaveOk (st : DemoState) (uid rid now : Nat) (room : Room) (user : User)
    (hr : mlookup st.rooms rid = some room)
    (h : CodeInv st) : CodeInv (leaveOkState st uid rid now room user) := by
  obtain ⟨h1, h2, h3, h4, h5, h6, h7⟩ := h
  refine ⟨?_, ?_, ?_, ?_, ?_, ?_, ?_⟩
  · simpa [leaveOkState] using h1
  · intro p hp
    simp only [leaveOkState] at hp
    rcases mem_mset _ _ _ _ hp with rfl | hp2
    · have hle := List.length_erase_le uid room.participants
      have := h2 (rid, room) (mlookup_mem _ _ _ hr)
      simp only at this ⊢
      omega
    · exact h2 p hp2
  · intro p hp
    simp only [leaveOkState] at hp
    rcases mem_mset _ _ _ _ hp with rfl | hp2
    · intro hfalse
      simp only at hfalse ⊢
      by_cases hz : (room.participants.erase uid).length = 0
      · exact List.length_eq_zero.mp hz
      · rw [if_neg hz] at hfalse
        have hempty := h3 (rid, room) (mlookup_mem _ _ _ hr) hfalse
        simp only at hempty
        rw [hempty] at hz
        simp at hz
    · exact h3 p hp2
  · intro p hp
    simp only [leaveOkState] at hp ⊢
    exact h4 p hp
  · intro p hp
    simp only [leaveOkState] at hp ⊢
    rcases mem_mset _ _ _ _ hp with rfl | hp2
    · exact h5 (rid, room) (mlookup_mem _ _ _ hr)
    · exact h5 p hp2
  · intro p hp
    simp only [leaveOkState] at hp ⊢
    exact mlookup_isSome_mset _ _ _ _ (h6 p hp)
  · intro rid2 room2 hlook
    simp only [leaveOkState] at hlook
    rw [mlookup_mset] at hlook
    have hstep : roomSeqs (leaveOkState st uid rid now room user) rid2 = roomSeqs st rid2 := by
      simp [roomSeqs, leaveOkState]
    by_cases hcase : rid = rid2
    · rw [if_pos hcase] at hlook
      obtain rfl := Option.some.inj hlook
      rw [hstep]
      subst hcase
      simpa using h7 rid room hr
    · rw [if_neg hcase] at hlook
      rw [hstep]
      exact h7 rid2 room2 hlook

theorem codeInv_leave (st : DemoState) (uid rid now : Nat) (h : CodeInv st) :
    CodeInv (leaveRoom st uid rid now).state := by
  rw [leaveRoom_eq]
  cases hr : mlookup st.rooms rid with
  | none => exact h
  | some room =>
      cases hu : mlookup st.users uid with
      | none => exact h
      | some user =>
          by_cases hmem : uid ∈ room.participants
          · simp only [if_pos hmem, OpResult.state]
            exact codeInv_leaveOk st uid rid now room user hr h
          · simp only [if_neg hmem]
            exact h

theorem codeInv_broadcastLoop (u r len now : Nat) (targets : List Nat) (st : DemoState)
    (acc : List Nat) (h : CodeInv st) :
    CodeInv (broadcastLoop u r len now targets st acc).2 := by
  induction targets generalizing st acc with
  | nil => simpa [broadcastLoop] using h
  | cons t rest ih =>
      have hsend := codeInv_send st u r len t now h
      cases hs : sendVoiceMessage st u r len t now with
      | ok mid st1 =>
          rw [hs] at hsend
          simp only [broadcastLoop, hs]
          exact ih st1 (acc ++ [mid]) hsend
      | err e st1 =>
          rw [hs] at hsend
          simp only [broadcastLoop, hs]
          exact ih st1 acc hsend

theorem codeInv_broadcast (st : DemoState) (u r len : Nat) (pdas : List Nat) (now : Nat)
    (h : CodeInv st) : CodeInv (broadcastVoiceMessage st u r len pdas now).state := by
  unfold broadcastVoiceMessage
  cases hr : mlookup st.rooms r with
  | none => exact h
  | some room =>
      cases hu : mlookup st.users u with
      | none => exact h
      | some user =>
          by_cases hlen : pdas.length > 10
          · simp only [if_pos hlen]
            exact h
          · simp only [if_neg hlen]
            exact codeInv_broadcastLoop u r len now pdas st [] h

theorem codeInv_applyOp (st : DemoState) (op : Op) (h : CodeInv st) :
    CodeInv (applyOp st op) := by
  cases op with
  | opCreateUser n => exact codeInv_createUser st n h
  | opCreateRoom host n now => exact codeInv_createRoom st host n now h
  | opJoinRoom u r now => exact codeInv_join st u r now h
  | opSendVoiceMessage u r len pda now => exact codeInv_send st u r len pda now h
  | opBroadcastVoiceMessage u r len pdas now => exact codeInv_broadcast st u r len pdas now h
  | opLeaveRoom u r now => exact codeInv_leave st u r now h

theorem codeInv_runOpsAll (ops : List Op) (st : DemoState) (h : CodeInv st) :
    CodeInv (runOpsAll st ops) := by
  induction ops generalizing st with
  | nil => exact h
  | cons op rest ih => exact ih (applyOp st op) (codeInv_applyOp st op h)

theorem codeInv_init : CodeInv initState := by
  refine ⟨?_, ?_, ?_, ?_, ?_, ?_, ?_⟩ <;> simp [initState, mlookup, roomSeqs]

/-- C2: after every sequence of demo calls (sends and broadcasts included,
successful or failing), every slot in the storage pool satisfies
`used ≤ capacity`. -/
theorem slots_used_le_capacity (ops : List Op) :
    ∀ p ∈ (runOpsAll initState ops).storage, p.2.used ≤ p.2.capacity :=
  (codeInv_runOpsAll ops initState codeInv_init).slotsLe

/-- Witness for C2 at a concrete run: the slot filled to 29696 of 30720
bytes by `c1pre`'s send satisfies the invariant. -/
theorem slots_used_le_capacity_witness :
    ((0 : Nat), c1slot) ∈ c1pre.storage ∧ c1slot.used ≤ c1slot.capacity :=
  ⟨by decide,
    slots_used_le_capacity
      [Op.opCreateUser "A", Op.opCreateRoom 0 "R" 0, Op.opSendVoiceMessage 0 1 29696 0 1]
      (0, c1slot) (by decide)⟩

/-- C3 (amended): after every sequence of demo calls, the sequence numbers
of the messages persisted for a room — including messages persisted by sends
that then failed with `SlotFull` — are exactly `1, 2, …, messageCount` in
creation order.  The sequence numbers of the *successful* sends alone can
have gaps, because a send that fails the capacity check has already
persisted its message and consumed its sequence number (see the
counterexample). -/
theorem roomSeqs_complete (ops : List Op) (rid : Nat) (room : Room)
    (h : mlookup (runOpsAll initState ops).rooms rid = some room) :
    roomSeqs (runOpsAll initState ops) rid = List.range' 1 room.messageCount :=
  (codeInv_runOpsAll ops initState codeInv_init).seqs rid room h

/-- Witness for C3 at a concrete run: after `c1pre`'s one successful send,
room 1 stores sequence numbers `[1]`. -/
theorem roomSeqs_complete_witness :
    mlookup c1pre.rooms 1 = some c1room ∧
    roomSeqs c1pre 1 = List.range' 1 c1room.messageCount :=
  ⟨by decide,
    roomSeqs_complete
      [Op.opCreateUser "A", Op.opCreateRoom 0 "R" 0, Op.opSendVoiceMessage 0 1 29696 0 1]
      1 c1room (by decide)⟩

/-- Counterexample to C3 as stated: in the run `c3r1; c3r2; c3r3`, the first
and third sends succeed and the second fails with `SlotFull`, yet the two
successful sends carry sequence numbers 1 and 3 — not 1 and 2 — because the
failing send consumed sequence number 2. -/
theorem roomSeqs_gap_counterexample :
    c3r1.error = none ∧
    c3r2.error = some (VErr.storagePDAFull 0) ∧
    c3r3.error = none ∧
    (mlookup c3r3.state.messages (c3r1.getD 0)).map Message.sequenceNumber = some 1 ∧
    (mlookup c3r3.state.messages (c3r3.getD 0)).map Message.sequenceNumber = some 3 ∧
    (mlookup c3r3.state.messages (c3r3.getD 0)).map Message.sequenceNumber ≠ some 2 :=
  ⟨by decide, by decide, by decide, by decide, by decide, by decide⟩

/-- C5: the participant list of every room never exceeds 10 entries, and a
`joinRoom` by a non-member on an active room that already has 10
participants fails with `Room is full` leaving the state unchanged. -/
theorem participants_capped :
    (∀ ops, ∀ p ∈ (runOpsAll initState ops).rooms, p.2.participants.length ≤ 10) ∧
    (∀ st uid rid now room, mlookup st.rooms rid = some room → room.isActive = true →
      uid ∉ room.participants → room.participants.length = 10 →
      joinRoom st uid rid now = OpResult.err VErr.roomFull st) := by
  constructor
  · intro ops p hp
    exact (codeInv_runOpsAll ops initState codeInv_init).roomsLe10 p hp
  · intro st uid rid now room hr hact hmem hlen
    simp only [joinRoom_eq, hr]
    rw [if_neg (by simp [hact]), if_neg hmem, if_pos (by omega)]

/-- Witness for C5: room 11 of `c5full` holds exactly 10 participants, and
user 10's join fails with `Room is full` without changing the state. -/
theorem participants_capped_witness :
    (((11 : Nat), c5room) ∈ c5full.rooms ∧ c5room.participants.length ≤ 10) ∧
    joinRoom c5full 10 11 99 = OpResult.err VErr.roomFull c5full :=
  ⟨⟨by decide, participants_capped.1 c5ops (11, c5room) (by decide)⟩,
    participants_capped.2 c5full 10 11 99 c5room (by decide) (by decide) (by decide) (by decide)⟩

/-- C6 (amended): a `sendVoiceMessage` naming an existing but inactive room
and an existing user fails with `User not in room`, not with an
inactive-room error: the send validates only existence and membership and
never reads the active flag, and a room that became inactive through the
demo's calls has an empty participant list. -/
theorem send_inactive_room_notMember (ops : List Op) (uid rid len pda now : Nat)
    (room : Room) (user : User)
    (hr : mlookup (runOpsAll initState ops).rooms rid = some room)
    (hact : room.isActive = false)
    (hu : mlookup (runOpsAll initState ops).users uid = some user) :
    sendVoiceMessage (runOpsAll initState ops) uid rid len pda now =
      OpResult.err VErr.userNotInRoom (runOpsAll initState ops) := by
  have hinv := codeInv_runOpsAll ops initState codeInv_init
  have hempty : room.participants = [] :=
    hinv.inactiveEmpty (rid, room) (mlookup_mem _ _ _ hr) hact
  simp only [sendVoiceMessage_eq, hr, hu]
  rw [if_neg (by simp [hempty])]

/-- Witness for C6 at a concrete run: sending to the deactivated room of
`c6pre` fails with `User not in room`. -/
theorem send_inactive_room_notMember_witness :
    sendVoiceMessage c6pre 0 1 2000 0 5 = OpResult.err VErr.userNotInRoom c6pre :=
  send_inactive_room_notMember
    [Op.opCreateUser "A", Op.opCreateRoom 0 "R" 0, Op.opLeaveRoom 0 1 2]
    0 1 2000 0 5 c6room c6user (by decide) (by decide) (by decide)

/-- Counterexample to C6 as stated: in `c6pre`, room 1 exists with
`isActive = false`, yet the send fails with `User not in room` — not with
the inactive-room error the claim requires — and leaves the state
unchanged. -/
theorem send_inactive_room_counterexample :
    (mlookup c6pre.rooms 1).map Room.isActive = some false ∧
    (sendVoiceMessage c6pre 0 1 2000 0 5).error = some VErr.userNotInRoom ∧
    (sendVoiceMessage c6pre 0 1 2000 0 5).error ≠ some VErr.roomNotActive ∧
    (sendVoiceMessage c6pre 0 1 2000 0 5).state = c6pre :=
  ⟨by decide, by decide, by decide, by decide⟩

theorem nodup_append_singleton (a : Nat) (l : List Nat) (h1 : a ∉ l) (h2 : l.Nodup) :
    (l ++ [a]).Nodup := by
  simp [List.nodup_append, h1, h2]

theorem memInv_createUser (st : DemoState) (n : String) (h : MemInv st) :
    MemInv (createUser st n).state := by
  obtain ⟨hc, hpn, hjn, hrk, huk, hpl, hjl⟩ := h
  rw [createUser_state]
  refine ⟨?_, ?_, ?_, ?_, ?_, ?_, ?_⟩
  · intro rid room hroom uid user huser
    simp only at hroom huser ⊢
    rw [mlookup_mset] at huser
    by_cases hfreshu : st.nextId = uid
    · rw [if_pos hfreshu] at huser
      obtain rfl := Option.some.inj huser
      constructor
      · intro hmem
        have := hpl rid room hroom uid hmem
        omega
      · intro hrid
        simp at hrid
    · rw [if_neg hfreshu] at huser
      exact hc rid room hroom uid user huser
  · intro rid room hroom
    exact hpn rid room hroom
  · intro uid user huser
    simp only at huser
    rw [mlookup_mset] at huser
    by_cases hfreshu : st.nextId = uid
    · rw [if_pos hfreshu] at huser
      obtain rfl := Option.some.inj huser
      simp
    · rw [if_neg hfreshu] at huser
      exact hjn uid user huser
  · intro rid room hroom
    have := hrk rid room hroom
    simp only
    omega
  · intro uid user huser
    simp only at huser ⊢
    rw [mlookup_mset] at huser
    by_cases hfreshu : st.nextId = uid
    · omega
    · rw [if_neg hfreshu] at huser
      have := huk uid user huser
      omega
  · intro rid room hroom uid hmem
    have := hpl rid room hroom uid hmem
    simp only
    omega
  · intro uid user huser
    simp only at huser ⊢
    rw [mlookup_mset] at huser
    by_cases hfreshu : st.nextId = uid
    · rw [if_pos hfreshu] at huser
      obtain rfl := Option.some.inj huser
      simp
    · rw [if_neg hfreshu] at huser
      intro rid hrid
      have := hjl uid user huser rid hrid
      omega

theorem memInv_createRoomOk (st : DemoState) (host : Nat) (n : String) (now : Nat)
    (user : User) (hu : mlookup st.users host = some user) (h : MemInv st) :
    MemInv (createRoomOk st host n now user) := by
  obtain ⟨hc, hpn, hjn, hrk, huk, hpl, hjl⟩ := h
  have hhost : host < st.nextId := huk host user hu
  refine ⟨?_, ?_, ?_, ?_, ?_, ?_, ?_⟩
  · intro rid room hroom uid user2 huser
    simp only [createRoomOk, createRoomMid] at hroom huser
    rw [mlookup_mset] at hroom huser
    by_cases hfr : st.nextId = rid
    · rw [if_pos hfr] at hroom
      obtain rfl := Option.some.inj hroom
      by_cases hfu : host = uid
      · rw [if_pos hfu] at huser
        obtain rfl := Option.some.inj huser
        subst hfu
        subst hfr
        simp [createdRoom]
      · rw [if_neg hfu] at huser
        simp only [createdRoom]
        constructor
        · intro hmem
          simp at hmem
          exact absurd hmem.symm hfu
        · intro hrid
          have := hjl uid user2 huser rid hrid
          omega
    · rw [if_neg hfr] at hroom
      by_cases hfu : host = uid
      · rw [if_pos hfu] at huser
        obtain rfl := Option.some.inj huser
        subst hfu
        have hbase := hc rid room hroom host user hu
        simp only [List.mem_append, List.mem_singleton]
        constructor
        · intro hmem
          exact Or.inl (hbase.mp hmem)
        · intro hrid
          rcases hrid with hrid | hrid
          · exact hbase.mpr hrid
          · exact absurd hrid.symm hfr
      · rw [if_neg hfu] at huser
        exact hc rid room hroom uid user2 huser
  · intro rid room hroom
    simp only [createRoomOk, createRoomMid] at hroom
    rw [mlookup_mset] at hroom
    by_cases hfr : st.nextId = rid
    · rw [if_pos hfr] at hroom
      obtain rfl := Option.some.inj hroom
      simp [createdRoom]
    · rw [if_neg hfr] at hroom
      exact hpn rid room hroom
  · intro uid user2 huser
    simp only [createRoomOk, createRoomMid] at huser
    rw [mlookup_mset] at huser
    by_cases hfu : host = uid
    · rw [if_pos hfu] at huser
      obtain rfl := Option.some.inj huser
      simp only
      refine nodup_append_singleton _ _ ?_ (hjn host user hu)
      intro hmem
      have := hjl host user hu st.nextId hmem
      omega
    · rw [if_neg hfu] at huser
      exact hjn uid user2 huser
  · intro rid room hroom
    simp only [createRoomOk, createRoomMid] at hroom ⊢
    rw [mlookup_mset] at hroom
    by_cases hfr : st.nextId = rid
    · omega
    · rw [if_neg hfr] at hroom
      have := hrk rid room hroom
      omega
  · intro uid user2 huser
    simp only [createRoomOk, createRoomMid] at huser ⊢
    rw [mlookup_mset] at huser
    by_cases hfu : host = uid
    · rw [if_pos hfu] at huser
      omega
    · rw [if_neg hfu] at huser
      have := huk uid user2 huser
      omega
  · intro rid room hroom uid hmem
    simp only [createRoomOk, createRoomMid] at hroom ⊢
    rw [mlookup_mset] at hroom
    by_cases hfr : st.nextId = rid
    · rw [if_pos hfr] at hroom
      obtain rfl := Option.some.inj hroom
      simp only [createdRoom, List.mem_singleton] at hmem
      omega
    · rw [if_neg hfr] at hroom
      have := hpl rid room hroom uid hmem
      omega
  · intro uid user2 huser
    simp only [createRoomOk, createRoomMid] at huser ⊢
    rw [mlookup_mset] at huser
    by_cases hfu : host = uid
    · rw [if_pos hfu] at huser
      obtain rfl := Option.some.inj huser
      intro rid hrid
      simp only [List.mem_append, List.mem_singleton] at hrid
      rcases hrid with hrid | hrid
      · have := hjl host user hu rid hrid
        omega
      · omega
    · rw [if_neg hfu] at huser
      intro rid hrid
      have := hjl uid user2 huser rid hrid
      omega

theorem memInv_joinOk (st : DemoState) (uid rid now : Nat) (room : Room) (user : User)
    (hr : mlookup st.rooms rid = some room)
    (hu : mlookup st.users uid = some user)
    (hmem : uid ∉ room.participants)
    (h : MemInv st) : MemInv (joinOkState st uid rid now room user) := by
  obtain ⟨hc, hpn, hjn, hrk, huk, hpl, hjl⟩ := h
  have hbase := hc rid room hr uid user hu
  have hnotjoined : rid ∉ user.joinedRooms := fun hj => hmem (hbase.mpr hj)
  refine ⟨?_, ?_, ?_, ?_, ?_, ?_, ?_⟩
  · intro rid2 room2 hroom uid2 user2 huser
    simp only [joinOkState, joinRoomMid] at hroom huser
    rw [mlookup_mset] at hroom huser
    by_cases hfr : rid = rid2
    · rw [if_pos hfr] at hroom
      obtain rfl := Option.some.inj hroom
      subst hfr
      by_cases hfu : uid = uid2
      · rw [if_pos hfu] at huser
        obtain rfl := Option.some.inj huser
        subst hfu
        simp
      · rw [if_neg hfu] at huser
        have hb2 := hc rid room hr uid2 user2 huser
        simp only [List.mem_append, List.mem_singleton]
        constructor
        · intro hm
          rcases hm with hm | hm
          · exact hb2.mp hm
          · exact absurd hm.symm hfu
        · intro hj
          exact Or.inl (hb2.mpr hj)
    · rw [if_neg hfr] at hroom
      by_cases hfu : uid = uid2
      · rw [if_pos hfu] at huser
        obtain rfl := Option.some.inj huser
        subst hfu
        have hb2 := hc rid2 room2 hroom uid user hu
        simp only [List.mem_append, List.mem_singleton]
        constructor
        · intro hm
          exact Or.inl (hb2.mp hm)
        · intro hj
          rcases hj with hj | hj
          · exact hb2.mpr hj
          · exact absurd hj.symm hfr
      · rw [if_neg hfu] at huser
        exact hc rid2 room2 hroom uid2 user2 huser
  · intro rid2 room2 hroom
    simp only [joinOkState, joinRoomMid] at hroom
    rw [mlookup_mset] at hroom
    by_cases hfr : rid = rid2
    · rw [if_pos hfr] at hroom
      obtain rfl := Option.some.inj hroom
      exact nodup_append_singleton _ _ hmem (hpn rid room hr)
    · rw [if_neg hfr] at hroom
      exact hpn rid2 room2 hroom
  · intro uid2 user2 huser
    simp only [joinOkState, joinRoomMid] at huser
    rw [mlookup_mset] at huser
    by_cases hfu : uid = uid2
    · rw [if_pos hfu] at huser
      obtain rfl := Option.some.inj huser
      exact nodup_append_singleton _ _ hnotjoined (hjn uid user hu)
    · rw [if_neg hfu] at huser
      exact hjn uid2 user2 huser
  · intro rid2 room2 hroom
    simp only [joinOkState, joinRoomMid] at hroom ⊢
    rw [mlookup_mset] at hroom
    by_cases hfr : rid = rid2
    · have := hrk rid room hr
      omega
    · rw [if_neg hfr] at hroom
      exact hrk rid2 room2 hroom
  · intro uid2 user2 huser
    simp only [joinOkState, joinRoomMid] at huser ⊢
    rw [mlookup_mset] at huser
    by_cases hfu : uid = uid2
    · have := huk uid user hu
      omega
    · rw [if_neg hfu] at huser
      exact huk uid2 user2 huser
  · intro rid2 room2 hroom uid3 hm
    simp only [joinOkState, joinRoomMid] at hroom ⊢
    rw [mlookup_mset] at hroom
    by_cases hfr : rid = rid2
    · rw [if_pos hfr] at hroom
      obtain rfl := Option.some.inj hroom
      simp only [List.mem_append, List.mem_singleton] at hm
      rcases hm with hm | hm
      · exact hpl rid room hr uid3 hm
      · have := huk uid user hu
        omega
    · rw [if_neg hfr] at hroom
      exact hpl rid2 room2 hroom uid3 hm
  · intro uid2 user2 huser
    simp only [joinOkState, joinRoomMid] at huser ⊢
    rw [mlookup_mset] at huser
    by_cases hfu : uid = uid2
    · rw [if_pos hfu] at huser
      obtain rfl := Option.some.inj huser
      intro rid3 hm
      simp only [List.mem_append, List.mem_singleton] at hm
      rcases hm with hm | hm
      · exact hjl uid user hu rid3 hm
      · have := hrk rid room hr
        omega
    · rw [if_neg hfu] at huser
      intro rid3 hm
      exact hjl uid2 user2 huser rid3 hm

theorem memInv_leaveOk (st : DemoState) (uid rid now : Nat) (room : Room) (user : User)
    (hr : mlookup st.rooms rid = some room)
    (hu : mlookup st.users uid = some user)
    (h : MemInv st) : MemInv (leaveOkState st uid rid now room user) := by
  obtain ⟨hc, hpn, hjn, hrk, huk, hpl, hjl⟩ := h
  have hndp := hpn rid room hr
  have hndj := hjn uid user hu
  refine ⟨?_, ?_, ?_, ?_, ?_, ?_, ?_⟩
  · intro rid2 room2 hroom uid2 user2 huser
    simp only [leaveOkState] at hroom huser
    rw [mlookup_mset] at hroom huser
    by_cases hfr : rid = rid2
    · rw [if_pos hfr] at hroom
      obtain rfl := Option.some.inj hroom
      subst hfr
      by_cases hfu : uid = uid2
      · rw [if_pos hfu] at huser
        obtain rfl := Option.some.inj huser
        subst hfu
        simp only
        constructor
        · intro hm
          exact absurd hm hndp.not_mem_erase
        · intro hj
          exact absurd hj hndj.not_mem_erase
      · rw [if_neg hfu] at huser
        have hb2 := hc rid room hr uid2 user2 huser
        simp only
        rw [List.mem_erase_of_ne (fun hx => hfu hx.symm)]
        exact hb2
    · rw [if_neg hfr] at hroom
      by_cases hfu : uid = uid2
      · rw [if_pos hfu] at huser
        obtain rfl := Option.some.inj huser
        subst hfu
        have hb2 := hc rid2 room2 hroom uid user hu
        simp only
        rw [List.mem_erase_of_ne (fun hx => hfr hx.symm)]
        exact hb2
      · rw [if_neg hfu] at huser
        exact hc rid2 room2 hroom uid2 user2 huser
  · intro rid2 room2 hroom
    simp only [leaveOkState] at hroom
    rw [mlookup_mset] at hroom
    by_cases hfr : rid = rid2
    · rw [if_pos hfr] at hroom
      obtain rfl := Option.some.inj hroom
      exact hndp.erase uid
    · rw [if_neg hfr] at hroom
      exact hpn rid2 room2 hroom
  · intro uid2 user2 huser
    simp only [leaveOkState] at huser
    rw [mlookup_mset] at huser
    by_cases hfu : uid = uid2
    · rw [if_pos hfu] at huser
      obtain rfl := Option.some.inj huser
      exact hndj.erase rid
    · rw [if_neg hfu] at huser
      exact hjn uid2 user2 huser
  · intro rid2 room2 hroom
    simp only [leaveOkState] at hroom ⊢
    rw [mlookup_mset] at hroom
    by_cases hfr : rid = rid2
    · have := hrk rid room hr
      omega
    · rw [if_neg hfr] at hroom
      exact hrk rid2 room2 hroom
  · intro uid2 user2 huser
    simp only [leaveOkState] at huser ⊢
    rw [mlookup_mset] at huser
    by_cases hfu : uid = uid2
    · have := huk uid user hu
      omega
    · rw [if_neg hfu] at huser
      exact huk uid2 user2 huser
  · intro rid2 room2 hroom uid3 hm
    simp only [leaveOkState] at hroom ⊢
    rw [mlookup_mset] at hroom
    by_cases hfr : rid = rid2
    · rw [if_pos hfr] at hroom
      obtain rfl := Option.some.inj hroom
      simp only at hm
      exact hpl rid room hr uid3 (List.erase_subset _ _ hm)
    · rw [if_neg hfr] at hroom
      exact hpl rid2 room2 hroom uid3 hm
  · intro uid2 user2 huser
    simp only [leaveOkState] at huser ⊢
    rw [mlookup_mset] at huser
    by_cases hfu : uid = uid2
    · rw [if_pos hfu] at huser
      obtain rfl := Option.some.inj huser
      intro rid3 hm
      simp only at hm
      exact hjl uid user hu rid3 (List.erase_subset _ _ hm)
    · rw [if_neg hfu] at huser
      intro rid3 hm
      exact hjl uid2 user2 huser rid3 hm

theorem memInv_sendOk (st : DemoState) (uid rid len pda now : Nat) (room : Room) (user : User)
    (hr : mlookup st.rooms rid = some room)
    (hu : mlookup st.users uid = some user)
    (h : MemInv st) : MemInv (sendOkState st uid rid len pda now room user) := by
  obtain ⟨hc, hpn, hjn, hrk, huk, hpl, hjl⟩ := h
  refine ⟨?_, ?_, ?_, ?_, ?_, ?_, ?_⟩
  · intro rid2 room2 hroom uid2 user2 huser
    simp only [sendOkState, sendStatsState] at hroom huser
    rw [mlookup_mset] at hroom huser
    by_cases hfr : rid = rid2
    · rw [if_pos hfr] at hroom
      obtain rfl := Option.some.inj hroom
      subst hfr
      by_cases hfu : uid = uid2
      · rw [if_pos hfu] at huser
        obtain rfl := Option.some.inj huser
        subst hfu
        simpa using hc rid room hr uid user hu
      · rw [if_neg hfu] at huser
        simpa using hc rid room hr uid2 user2 huser
    · rw [if_neg hfr] at hroom
      by_cases hfu : uid = uid2
      · rw [if_pos hfu] at huser
        obtain rfl := Option.some.inj huser
        subst hfu
        simpa using hc rid2 room2 hroom uid user hu
      · rw [if_neg hfu] at huser
        exact hc rid2 room2 hroom uid2 user2 huser
  · intro rid2 room2 hroom
    simp only [sendOkState, sendStatsState] at hroom
    rw [mlookup_mset] at hroom
    by_cases hfr : rid = rid2
    · rw [if_pos hfr] at hroom
      obtain rfl := Option.some.inj hroom
      simpa using hpn rid room hr
    · rw [if_neg hfr] at hroom
      exact hpn rid2 room2 hroom
  · intro uid2 user2 huser
    simp only [sendOkState, sendStatsState] at huser
    rw [mlookup_mset] at huser
    by_cases hfu : uid = uid2
    · rw [if_pos hfu] at huser
      obtain rfl := Option.some.inj huser
      simpa using hjn uid user hu
    · rw [if_neg hfu] at huser
      exact hjn uid2 user2 huser
  · intro rid2 room2 hroom
    simp only [sendOkState, sendStatsState] at hroom ⊢
    rw [mlookup_mset] at hroom
    by_cases hfr : rid = rid2
    · have := hrk rid room hr
      omega
    · rw [if_neg hfr] at hroom
      have := hrk rid2 room2 hroom
      omega
  · intro uid2 user2 huser
    simp only [sendOkState, sendStatsState] at huser ⊢
    rw [mlookup_mset] at huser
    by_cases hfu : uid = uid2
    · have := huk uid user hu
      omega
    · rw [if_neg hfu] at huser
      have := huk uid2 user2 huser
      omega
  · intro rid2 room2 hroom uid3 hm
    simp only [sendOkState, sendStatsState] at hroom ⊢
    rw [mlookup_mset] at hroom
    by_cases hfr : rid = rid2
    · rw [if_pos hfr] at hroom
      obtain rfl := Option.some.inj hroom
      simp only at hm
      have := hpl rid room hr uid3 hm
      omega
    · rw [if_neg hfr] at hroom
      have := hpl rid2 room2 hroom uid3 hm
      omega
  · intro uid2 user2 huser
    simp only [sendOkState, sendStatsState] at huser ⊢
    rw [mlookup_mset] at huser
    by_cases hfu : uid = uid2
    · rw [if_pos hfu] at huser
      obtain rfl := Option.some.inj huser
      intro rid3 hm
      simp only at hm
      have := hjl uid user hu rid3 hm
      omega
    · rw [if_neg hfu] at huser
      intro rid3 hm
      have := hjl uid2 user2 huser rid3 hm
      omega

theorem memInv_init : MemInv initState := by
  refine ⟨?_, ?_, ?_, ?_, ?_, ?_, ?_⟩ <;> simp [Consistent, initState, mlookup]

theorem memInv_createRoom_res (st : DemoState) (host : Nat) (n : String) (now : Nat)
    (hok : (createRoom st host n now).error = none) (h : MemInv st) :
    MemInv (createRoom st host n now).state := by
  rw [createRoom_eq] at hok ⊢
  cases hu : mlookup st.users host with
  | none =>
      simp only [hu, OpResult.error] at hok
      cases hok
  | some user =>
      simp only [hu]
      exact memInv_createRoomOk st host n now user hu h

theorem memInv_join_res (st : DemoState) (uid rid now : Nat)
    (hok : (joinRoom st uid rid now).error = none) (h : MemInv st) :
    MemInv (joinRoom st uid rid now).state := by
  rw [joinRoom_eq] at hok ⊢
  cases hr : mlookup st.rooms rid with
  | none =>
      simp only [hr, OpResult.error] at hok
      cases hok
  | some room =>
      simp only [hr] at hok ⊢
      by_cases hact : room.isActive = false
      · rw [if_pos hact] at hok
        simp [OpResult.error] at hok
      · rw [if_neg hact] at hok ⊢
        by_cases hmem : uid ∈ room.participants
        · rw [if_pos hmem] at hok
          simp [OpResult.error] at hok
        · rw [if_neg hmem] at hok ⊢
          by_cases hlen : room.participants.length ≥ 10
          · rw [if_pos hlen] at hok
            simp [OpResult.error] at hok
          · rw [if_neg hlen] at hok ⊢
            cases hu : mlookup st.users uid with
            | none =>
                simp only [hu, OpResult.error] at hok
                cases hok
            | some user =>
                simp only [hu]
                exact memInv_joinOk st uid rid now room user hr hu hmem h

theorem memInv_leave_res (st : DemoState) (uid rid now : Nat)
    (hok : (leaveRoom st uid rid now).error = none) (h : MemInv st) :
    MemInv (leaveRoom st uid rid now).state := by
  rw [leaveRoom_eq] at hok ⊢
  cases hr : mlookup st.rooms rid with
  | none =>
      simp only [hr, OpResult.error] at hok
      cases hok
  | some room =>
      cases hu : mlookup st.users uid with
      | none =>
          simp only [hr, hu, OpResult.error] at hok
          cases hok
      | some user =>
          simp only [hr, hu] at hok ⊢
          by_cases hmem : uid ∈ room.participants
          · rw [if_pos hmem]
            exact memInv_leaveOk st uid rid now room user hr hu h
          · rw [if_neg hmem] at hok
            simp [OpResult.error] at hok

theorem memInv_send_res (st : DemoState) (uid rid len pda now : Nat)
    (hok : (sendVoiceMessage st uid rid len pda now).error = none) (h : MemInv st) :
    MemInv (sendVoiceMessage st uid rid len pda now).state := by
  rw [sendVoiceMessage_eq] at hok ⊢
  cases hr : mlookup st.rooms rid with
  | none =>
      simp only [hr, OpResult.error] at hok
      cases hok
  | some room =>
      cases hu : mlookup st.users uid with
      | none =>
          simp only [hr, hu, OpResult.error] at hok
          cases hok
      | some user =>
          simp only [hr, hu] at hok ⊢
          by_cases hmem : uid ∈ room.participants
          · rw [if_pos hmem] at hok ⊢
            by_cases hbig : len > 29 * 1024
            · rw [if_pos hbig] at hok
              simp [OpResult.error] at hok
            · rw [if_neg hbig] at hok ⊢
              by_cases hfull : (slotAt st pda).used + len > (slotAt st pda).capacity
              · rw [if_pos hfull] at hok
                simp [OpResult.error] at hok
              · rw [if_neg hfull]
                exact memInv_sendOk st uid rid len pda now room user hr hu h
          · rw [if_neg hmem] at hok
            simp [OpResult.error] at hok

theorem memInv_reachable (st : DemoState) (h : ReachableOk st) : MemInv st := by
  induction h with
  | init => exact memInv_init
  | stepCreateUser n h ih => exact memInv_createUser _ n ih
  | stepCreateRoom host n now h hok ih => exact memInv_createRoom_res _ host n now hok ih
  | stepJoinRoom uid rid now h hok ih => exact memInv_join_res _ uid rid now hok ih
  | stepLeaveRoom uid rid now h hok ih => exact memInv_leave_res _ uid rid now hok ih
  | stepSendVoiceMessage uid rid len pda now h hok ih =>
      exact memInv_send_res _ uid rid len pda now hok ih

/-- C10: in every state reachable through successful `createUser`,
`createRoom`, `joinRoom`, `leaveRoom` and `sendVoiceMessage` calls, a user
id stands in a room's participant list exactly when that room's id stands in
that user's `joinedRooms` list. -/
theorem membership_bidirectional (st : DemoState) (h : ReachableOk st) : Consistent st :=
  (memInv_reachable st h).consistent

/-- Witness for C10 at the concrete successful run behind `c10w` (two
users, one room, one join). -/
theorem membership_bidirectional_witness : Consistent c10w :=
  membership_bidirectional c10w
    (ReachableOk.stepJoinRoom 1 2 1
      (ReachableOk.stepCreateRoom 0 "R" 0
        (ReachableOk.stepCreateUser "B"
          (ReachableOk.stepCreateUser "A" ReachableOk.init))
        (by decide))
      (by decide))

/-- C1 (amended): a valid send whose target slot cannot fit the payload
fails with `Storage PDA full` and leaves the slot — used counter and message
list — unchanged, but the rest of the state is already mutated when the
capacity check runs: the message is persisted under the fresh id, the room's
`messageCount` and `lastActivity` and the sender's `messagesSent` are
updated. -/
theorem send_slotFull_partial_state (st : DemoState) (uid rid len pda now : Nat)
    (room : Room) (user : User) (slot : StoragePDA)
    (hr : mlookup st.rooms rid = some room)
    (hu : mlookup st.users uid = some user)
    (hmem : uid ∈ room.participants)
    (hlen : len ≤ 29 * 1024)
    (hslot : mlookup st.storage pda = some slot)
    (hfull : slot.capacity < slot.used + len) :
    sendVoiceMessage st uid rid len pda now =
      OpResult.err (VErr.storagePDAFull pda) (sendStatsState st uid rid len pda now room user) ∧
    mlookup (sendStatsState st uid rid len pda now room user).storage pda = some slot ∧
    mlookup (sendStatsState st uid rid len pda now room user).rooms rid =
      some { room with messageCount := room.messageCount + 1, lastActivity := now } ∧
    mlookup (sendStatsState st uid rid len pda now room user).users uid =
      some { user with messagesSent := user.messagesSent + 1 } ∧
    mlookup (sendStatsState st uid rid len pda now room user).messages st.nextId =
      some (sentMessage uid rid len pda now room) := by
  have hslotAt : slotAt st pda = slot := by simp [slotAt, hslot]
  refine ⟨?_, ?_, ?_, ?_, ?_⟩
  · simp only [sendVoiceMessage_eq, hr, hu]
    rw [if_pos hmem, if_neg (by omega), if_pos (by rw [hslotAt]; omega)]
  · simp only [sendStatsState]
    rw [hslotAt]
    exact mlookup_mset_self _ _ _
  · simp only [sendStatsState]
    exact mlookup_mset_self _ _ _
  · simp only [sendStatsState]
    exact mlookup_mset_self _ _ _
  · simp only [sendStatsState]
    exact mlookup_mset_self _ _ _

/-- Witness for C1 at the concrete run `c1pre`: the 2000-byte send into the
29696/30720-filled slot 0 fails with `Storage PDA 0 full`, the slot stays as
it was, and the message store and counters show the already-performed
updates. -/
theorem send_slotFull_partial_state_witness :
    sendVoiceMessage c1pre 0 1 2000 0 7 =
      OpResult.err (VErr.storagePDAFull 0) (sendStatsState c1pre 0 1 2000 0 7 c1room c1user) ∧
    mlookup (sendStatsState c1pre 0 1 2000 0 7 c1room c1user).storage 0 = some c1slot ∧
    mlookup (sendStatsState c1pre 0 1 2000 0 7 c1room c1user).rooms 1 =
      some { c1room with messageCount := c1room.messageCount + 1, lastActivity := 7 } ∧
    mlookup (sendStatsState c1pre 0 1 2000 0 7 c1room c1user).users 0 =
      some { c1user with messagesSent := c1user.messagesSent + 1 } ∧
    mlookup (sendStatsState c1pre 0 1 2000 0 7 c1room c1user).messages c1pre.nextId =
      some (sentMessage 0 1 2000 0 7 c1room) :=
  send_slotFull_partial_state c1pre 0 1 2000 0 7 c1room c1user c1slot
    (by decide) (by decide) (by decide) (by decide) (by decide) (by decide)

/-- Counterexample to C1 as stated: in `c1pre` the valid 2000-byte send into
the nearly full slot 0 fails with `SlotFull`, and while the slot's usage is
indeed unchanged, `room.messageCount` went from 1 to 2, `user.messagesSent`
from 1 to 2, `room.lastActivity` from 1 to 7, and the message store gained
the message — the state is not left as it was. -/
theorem send_slotFull_state_changed_counterexample :
    (sendVoiceMessage c1pre 0 1 2000 0 7).error = some (VErr.storagePDAFull 0) ∧
    (mlookup c1pre.rooms 1).map Room.messageCount = some 1 ∧
    (mlookup (sendVoiceMessage c1pre 0 1 2000 0 7).state.rooms 1).map Room.messageCount =
      some 2 ∧
    (mlookup c1pre.users 0).map User.messagesSent = some 1 ∧
    (mlookup (sendVoiceMessage c1pre 0 1 2000 0 7).state.users 0).map User.messagesSent =
      some 2 ∧
    (mlookup c1pre.rooms 1).map Room.lastActivity = some 1 ∧
    (mlookup (sendVoiceMessage c1pre 0 1 2000 0 7).state.rooms 1).map Room.lastActivity =
      some 7 ∧
    mlookup c1pre.messages 3 = none ∧
    (mlookup (sendVoiceMessage c1pre 0 1 2000 0 7).state.messages 3).isSome = true ∧
    slotUsed (sendVoiceMessage c1pre 0 1 2000 0 7).state 0 = slotUsed c1pre 0 := by
  decide

/-- C9: removing the last remaining participant deactivates the room, and
every subsequent `joinRoom` on that room fails with `Room is not active`
leaving the state unchanged. -/
theorem leave_last_deactivates (st : DemoState) (uid rid now : Nat) (room : Room) (user : User)
    (hr : mlookup st.rooms rid = some room)
    (hu : mlookup st.users uid = some user)
    (honly : room.participants = [uid]) :
    (leaveRoom st uid rid now).error = none ∧
    (mlookup (leaveRoom st uid rid now).state.rooms rid).map Room.isActive = some false ∧
    (∀ uid2 now2, joinRoom (leaveRoom st uid rid now).state uid2 rid now2 =
      OpResult.err VErr.roomNotActive (leaveRoom st uid rid now).state) := by
  have hmem : uid ∈ room.participants := by simp [honly]
  have herase : room.participants.erase uid = [] := by simp [honly]
  have hleave : leaveRoom st uid rid now =
      OpResult.ok () (leaveOkState st uid rid now room user) := by
    simp only [leaveRoom_eq, hr, hu]
    rw [if_pos hmem]
  have hlook : mlookup (leaveOkState st uid rid now room user).rooms rid =
      some { room with
        participants := room.participants.erase uid
        lastActivity := now
        isActive :=
          if (room.participants.erase uid).length = 0 then false else room.isActive } := by
    simp only [leaveOkState]
    exact mlookup_mset_self _ _ _
  refine ⟨by rw [hleave]; rfl, ?_, ?_⟩
  · rw [hleave]
    simp only [OpResult.state]
    rw [hlook]
    simp [herase]
  · intro uid2 now2
    rw [hleave]
    simp only [OpResult.state]
    rw [joinRoom_eq]
    simp only [hlook]
    rw [if_pos (by simp [herase])]

/-- Witness for C9 at the concrete run `c9st`: user 0 leaving room 1 empties
and deactivates it, and a later join by user 7 fails with
`Room is not active`. -/
theorem leave_last_deactivates_witness :
    (leaveRoom c9st 0 1 5).error = none ∧
    (mlookup (leaveRoom c9st 0 1 5).state.rooms 1).map Room.isActive = some false ∧
    joinRoom (leaveRoom c9st 0 1 5).state 7 1 8 =
      OpResult.err VErr.roomNotActive (leaveRoom c9st 0 1 5).state := by
  have h := leave_last_deactivates c9st 0 1 5 c9room c9user (by decide) (by decide) (by decide)
  exact ⟨h.1, h.2.1, h.2.2 7 8⟩

theorem broadcastLoop_trace (u r len now : Nat) :
    ∀ (targets : List Nat) (st : DemoState) (acc : List Nat),
      ∃ ids, (broadcastLoop u r len now targets st acc).1 = acc ++ ids ∧
        BroadcastTrace u r len now st targets ids
          (broadcastLoop u r len now targets st acc).2 := by
  intro targets
  induction targets with
  | nil =>
      intro st acc
      exact ⟨[], by simp [broadcastLoop], BroadcastTrace.nil st⟩
  | cons pda rest ih =>
      intro st acc
      cases hs : sendVoiceMessage st u r len pda now with
      | ok mid st1 =>
          obtain ⟨ids, hid, htr⟩ := ih st1 (acc ++ [mid])
          refine ⟨mid :: ids, ?_, ?_⟩
          · simp only [broadcastLoop, hs, hid]
            simp
          · simp only [broadcastLoop, hs]
            exact BroadcastTrace.ok pda mid st1 hs htr
      | err e st1 =>
          obtain ⟨ids, hid, htr⟩ := ih st1 acc
          refine ⟨ids, ?_, ?_⟩
          · simp only [broadcastLoop, hs, hid]
          · simp only [broadcastLoop, hs]
            exact BroadcastTrace.err pda e st1 hs htr

/-- C4 (amended): for every broadcast call naming an existing room and an
existing user with at most 10 targets, the call returns exactly the message
ids of the successful per-target sends, in input order, skipping failed
targets entirely (`BroadcastTrace` pins each returned id to its successful
target position, with the state threaded through the sends); in the claim's
own scenario — targets `[0, 1, 2]` with slot 1 already full — it returns the
two ids 3 and 5, slots 0 and 2 show increased usage, and slot 1's usage is
unchanged. -/
theorem broadcast_partial_results :
    (∀ (st : DemoState) (u r len : Nat) (targets : List Nat) (now : Nat)
      (room : Room) (user : User),
      mlookup st.rooms r = some room →
      mlookup st.users u = some user →
      targets.length ≤ 10 →
      ∃ ids stF, broadcastVoiceMessage st u r len targets now = OpResult.ok ids stF ∧
        BroadcastTrace u r len now st targets ids stF) ∧
    (c4res.error = none ∧
     c4res.getD [] = [3, 5] ∧
     (c4res.getD []).length = 2 ∧
     slotUsed c4pre 0 = none ∧
     slotUsed c4res.state 0 = some 2000 ∧
     slotUsed c4pre 1 = some 29696 ∧
     slotUsed c4res.state 1 = some 29696 ∧
     slotUsed c4pre 2 = none ∧
     slotUsed c4res.state 2 = some 2000) := by
  constructor
  · intro st u r len targets now room user hr hu hlen
    obtain ⟨ids, hid, htr⟩ := broadcastLoop_trace u r len now targets st []
    refine ⟨ids, (broadcastLoop u r len now targets st []).2, ?_, htr⟩
    unfold broadcastVoiceMessage
    simp only [hr, hu]
    rw [if_neg (by omega)]
    rw [hid]
    simp
  · exact ⟨by decide, by decide, by decide, by decide, by decide, by decide, by decide,
      by decide, by decide⟩

/-- Witness for C4 at the concrete broadcast behind `c4res`: the universal
clause instantiated at `c4pre` with targets `[0, 1, 2]`. -/
theorem broadcast_partial_results_witness :
    ∃ ids stF, broadcastVoiceMessage c4pre 0 1 2000 [0, 1, 2] 9 = OpResult.ok ids stF ∧
      BroadcastTrace 0 1 2000 9 c4pre [0, 1, 2] ids stF :=
  broadcast_partial_results.1 c4pre 0 1 2000 [0, 1, 2] 9 c1room c1user
    (by decide) (by decide) (by decide)

/-- Counterexample to C4 as stated: the broadcast to the three targets
`[0, 1, 2]` with slot 1 full returns a list of 2 message ids, not one result
per target — the per-target failure is not represented in the result at
all. -/
theorem broadcast_results_counterexample :
    c4res.error = none ∧
    ([0, 1, 2] : List Nat).length = 3 ∧
    (c4res.getD []).length = 2 ∧
    (c4res.getD []).length ≠ 3 := by
  decide

end VoiceSpec

namespace Realloc

theorem reallocSteps_calls_le {σ : Type} (env : GrowthEnv σ) (targetSize : Nat) :
    ∀ fuel s calls, (reallocSteps env targetSize fuel s calls).2.2 ≤ calls + fuel := by
  intro fuel
  induction fuel with
  | zero =>
      intro s calls
      simp [reallocSteps]
  | succ k ih =>
      intro s calls
      rcases hp : env.step s with ⟨o, s1⟩
      cases o with
      | otherError =>
          simp only [reallocSteps, hp]
          omega
      | noReallocNeeded =>
          simp only [reallocSteps, hp]
          omega
      | ok =>
          simp only [reallocSteps, hp]
          by_cases hge : targetSize ≤ env.readSize s1
          · rw [if_pos hge]
            simp only
            omega
          · rw [if_neg hge]
            have := ih s1 (calls + 1)
            omega

/-- C7 (amended): the number of external growth calls the client plans — and
exactly performs whenever every step succeeds and the observed size never
reaches the target — equals `ceil((targetSize - 10240) / 10240)`, computed
from the fixed initial-size constant 10240 and independent of the size
observed at the start of the run; a partially grown unit is tolerated only
through the per-step early exit, not through the planned count. -/
theorem realloc_steps_from_fixed_initial {σ : Type} (env : GrowthEnv σ) (targetSize : Nat)
    (s : σ)
    (hstep : ∀ t, (env.step t).1 = StepOutcome.ok)
    (hsize : ∀ t, env.readSize t < targetSize) :
    (reallocatePDAToTargetSize env targetSize s).2.2 = maxIterationsFor targetSize := by
  suffices h : ∀ fuel s0 calls, (reallocSteps env targetSize fuel s0 calls).2.2 = calls + fuel by
    simpa [reallocatePDAToTargetSize] using h (maxIterationsFor targetSize) s 0
  intro fuel
  induction fuel with
  | zero =>
      intro s0 calls
      simp [reallocSteps]
  | succ k ih =>
      intro s0 calls
      have hs0 := hstep s0
      rcases hp : env.step s0 with ⟨o, s1⟩
      rw [hp] at hs0
      simp only at hs0
      subst hs0
      simp only [reallocSteps, hp]
      rw [if_neg (by have := hsize s1; omega)]
      rw [ih s1 (calls + 1)]
      omega

/-- Witness for C7: on a ledger stuck at 10240 bytes the client performs
exactly `maxIterationsFor 35840 = 3` growth calls. -/
theorem realloc_steps_from_fixed_initial_witness :
    (∀ t : Unit, ((envConst 10240).step t).1 = StepOutcome.ok) ∧
    (∀ t : Unit, (envConst 10240).readSize t < 35840) ∧
    (reallocatePDAToTargetSize (envConst 10240) 35840 ()).2.2 = maxIterationsFor 35840 :=
  ⟨fun _ => rfl, fun _ => by show (10240 : Nat) < 35840; decide,
    realloc_steps_from_fixed_initial (envConst 10240) 35840 () (fun _ => rfl)
      (fun _ => by show (10240 : Nat) < 35840; decide)⟩

/-- Counterexample to C7 as stated: started on a unit already grown to 20480
bytes with target 35840, the claim predicts
`ceil((35840 - 20480) / 10240) = 2` remaining steps, but the client performs
3 external growth calls — its bound comes from the fixed initial size 10240,
not from the observed current size. -/
theorem realloc_observed_size_counterexample :
    reallocatePDAToTargetSize envStuck 35840 20480 = (Except.ok (), 20480, 3) ∧
    natCeilDiv (35840 - 20480) 10240 = 2 ∧
    (reallocatePDAToTargetSize envStuck 35840 20480).2.2 ≠ natCeilDiv (35840 - 20480) 10240 :=
  ⟨rfl, by decide, by decide⟩

/-- C8 (amended): the reallocation loop always terminates, performing at
most `ceil((targetSize - 10240) / 10240)` external calls — 3 for the
10 KiB-to-35 KiB example; it stops after a single call when the step reports
`NoReallocNeeded` or when the freshly read size already reached the target;
when the bound is exhausted without reaching the target, the call returns
normally after a final size check — no incomplete-growth error is surfaced
(see the counterexample). -/
theorem realloc_terminates_bounded :
    (∀ (σ : Type) (env : GrowthEnv σ) (targetSize : Nat) (s : σ),
      (reallocatePDAToTargetSize env targetSize s).2.2 ≤ maxIterationsFor targetSize) ∧
    maxIterationsFor (35 * 1024) = 3 ∧
    (∀ (σ : Type) (env : GrowthEnv σ) (targetSize : Nat) (s : σ),
      0 < maxIterationsFor targetSize →
      (env.step s).1 = StepOutcome.noReallocNeeded →
      reallocatePDAToTargetSize env targetSize s = (Except.ok (), (env.step s).2, 1)) ∧
    (∀ (σ : Type) (env : GrowthEnv σ) (targetSize : Nat) (s : σ),
      0 < maxIterationsFor targetSize →
      (env.step s).1 = StepOutcome.ok →
      targetSize ≤ env.readSize (env.step s).2 →
      reallocatePDAToTargetSize env targetSize s = (Except.ok (), (env.step s).2, 1)) := by
  refine ⟨?_, by decide, ?_, ?_⟩
  · intro σ env targetSize s
    have := reallocSteps_calls_le env targetSize (maxIterationsFor targetSize) s 0
    simpa [reallocatePDAToTargetSize] using this
  · intro σ env targetSize s hpos hno
    obtain ⟨k, hk⟩ := Nat.exists_eq_succ_of_ne_zero (Nat.pos_iff_ne_zero.mp hpos)
    rcases hp : env.step s with ⟨o, s1⟩
    rw [hp] at hno
    simp only at hno
    subst hno
    simp only [reallocatePDAToTargetSize, hk, reallocSteps, hp]
  · intro σ env targetSize s hpos hok hge
    obtain ⟨k, hk⟩ := Nat.exists_eq_succ_of_ne_zero (Nat.pos_iff_ne_zero.mp hpos)
    rcases hp : env.step s with ⟨o, s1⟩
    rw [hp] at hok hge
    simp only at hok hge
    subst hok
    simp only [reallocatePDAToTargetSize, hk, reallocSteps, hp]
    rw [if_pos hge]

/-- Witness for C8: the bound holds on the stuck ledger; the constant is 3;
a `NoReallocNeeded` ledger and an already-done ledger each stop after one
call. -/
theorem realloc_terminates_bounded_witness :
    (reallocatePDAToTargetSize (envConst 10240) 35840 ()).2.2 ≤ maxIterationsFor 35840 ∧
    maxIterationsFor (35 * 1024) = 3 ∧
    reallocatePDAToTargetSize envNoRealloc 35840 () = (Except.ok (), (), 1) ∧
    reallocatePDAToTargetSize envDone 35840 () = (Except.ok (), (), 1) := by
  refine ⟨realloc_terminates_bounded.1 Unit (envConst 10240) 35840 (),
    realloc_terminates_bounded.2.1, ?_, ?_⟩
  · exact realloc_terminates_bounded.2.2.1 Unit envNoRealloc 35840 () (by decide) rfl
  · exact realloc_terminates_bounded.2.2.2 Unit envDone 35840 () (by decide) rfl (by decide)

/-- Counterexample to the incomplete-growth part of C8: on a ledger whose
steps all succeed without the unit ever growing past 10240 bytes, the loop
exhausts its 3-call bound with the observed size still short of the 35840
target, and the call nevertheless returns normally (`Except.ok`) — the
client surfaces no incomplete-growth error. -/
theorem realloc_no_error_counterexample :
    reallocatePDAToTargetSize (envConst 10240) 35840 () = (Except.ok (), (), 3) ∧
    (envConst 10240).readSize () < 35840 :=
  ⟨rfl, by decide⟩

end Realloc
